import Mathlib

/-!
# Playback coordinator of `src_c/music.c`

A shallow embedding of the state machine in `src/src_c/music.c`: the file-level
globals and the `pgMusicObject` records form one explicit state, every C function
is a function on that state, and the SDL_mixer engine is an external collaborator.

Conventions of the embedding

* Reals are rationals.  A C `double` is taken exactly; every value stored into
  a C `float` (a field of `pgMusicObject`, an argument parsed with format `f`)
  or computed in `float` goes through `f32`, the rounding to the nearest
  single-precision value (ties to even, subnormals included).  Infinities,
  NaN and overflow beyond the single-precision range are outside the model.
* `Uint64` values are naturals reduced modulo `2 ^ 64`; `long` has 64 bits
  (LP64); `int` products wrap to 32 bits (`i32`).
* Engine commands are appended to a trace (`Mixer.log`, newest first).  What the
  engine answers (start result, seek result, position, audio spec, clock,
  whether music was playing when asked to halt) is an argument of the function
  that asks.
* `Mix_HaltMusic` runs the hook registered with `Mix_HookMusicFinished` before
  it returns, when the engine had music to halt.  The same hooks
  (`endmusic_callback`, `pgmusic_endmusic_callback`) and the render hook
  `mixmusic_callback` are also transitions of their own, for completions and
  ticks that arrive between two calls.
* A dereference of a `NULL` object pointer has no successor state: the function
  returns `none`.
* Macros of headers outside this file are taken by their use here:
  `MIXER_INIT_CHECK()` returns from the function with an `SDLError` when
  `SDL_WasInit(SDL_INIT_AUDIO)` is false (state field `mixer_init`),
  `SDL_MIXER_VERSION_ATLEAST(2, 6, 0)` is the state field `mixer_2_6`,
  `SDL_MIXER_VERSION_ATLEAST(2, 8, 0)` is the argument `v28` of
  `_get_type_from_hint`, `PG_GetTicks()` is the argument `now`, and
  `SDL_NOEVENT` is `0`.
* A C string is the list of its characters without the terminator; a `NULL`
  string is `none`.
-/

namespace Music

/-- Handle of a decoded resource (`Mix_Music *`). -/
abbrev Handle := Nat

/-- Address of a `pgMusicObject`. -/
abbrev ObjId := Nat

/-- The C struct `pgMusicObject` (without the Python object header). -/
structure pgMusicObject where
  music : Option Handle
  volume : Rat
  position : Rat
  paused : Int
  ended : Int
  deriving DecidableEq

/-- Which function is registered with `Mix_HookMusicFinished`. -/
inductive Hook
  | unset
  | endmusic_callback
  | pgmusic_endmusic_callback
  deriving DecidableEq, Repr

/-- Commands sent to the SDL_mixer engine. -/
inductive Call
  | hookMusicFinished (h : Hook)
  | setPostMix (active : Bool)
  | volumeMusic (v : Int)
  | fadeInMusicPos (m : Handle) (loops fade_ms : Int) (pos : Rat)
  | playMusic (m : Handle) (loops : Int)
  | haltMusic
  | pauseMusic
  | resumeMusic
  | rewindMusic
  | fadeOutMusic (ms : Int)
  | freeMusic (m : Handle)
  | setMusicPosition (pos : Rat)
  deriving DecidableEq

/-- Observable part of the SDL_mixer engine: the pause flag read by
`Mix_PausedMusic`, the music volume read by `Mix_VolumeMusic(-1)`, the registered
hooks, and the trace of commands (newest first). -/
structure Mixer where
  paused : Bool
  volume : Int
  hook : Hook
  postmix : Bool
  log : List Call
  deriving DecidableEq

/-- Python exceptions raised by the module. -/
inductive PyErr
  | mixer_not_initialized
  | music_not_loaded
  | sdl_error
  | rwops_error
  | not_implemented
  | type_error
  deriving DecidableEq, Repr

/-- File-level state of `music.c`, the heap of `pgMusicObject`s and the engine. -/
structure MusicState where
  /-- Result of `SDL_WasInit(SDL_INIT_AUDIO)`, tested by `MIXER_INIT_CHECK`. -/
  mixer_init : Bool
  /-- Result of `SDL_WasInit(SDL_INIT_VIDEO)`. -/
  video_init : Bool
  /-- Compile-time test `SDL_MIXER_VERSION_ATLEAST(2, 6, 0)`. -/
  mixer_2_6 : Bool
  objs : ObjId → pgMusicObject
  current_music_obj : Option ObjId
  current_music : Option Handle
  queue_music : Option Handle
  queue_music_loops : Int
  endmusic_event : Int
  music_pos : Nat
  music_pos_time : Nat
  music_frequency : Int
  music_format : Nat
  music_channels : Int
  mixer : Mixer
  /-- Events handed to `pg_post_event`, newest first. -/
  posted : List Int

/-- Reduction of an integer to `Uint64`. -/
def u64 (i : Int) : Nat := (i % 2 ^ 64).toNat

/-- Reduction of an integer to a 64-bit two's-complement `long`. -/
def i64 (i : Int) : Int := (i + 2 ^ 63) % 2 ^ 64 - 2 ^ 63

/-- Reduction of an integer to a 32-bit two's-complement `int`. -/
def i32 (i : Int) : Int := (i + 2 ^ 31) % 2 ^ 32 - 2 ^ 31

/-- C conversion `(int)x` of a real: truncation toward zero. -/
def truncToInt (r : Rat) : Int := if 0 ≤ r then ⌊r⌋ else ⌈r⌉

/-- The value `(Uint64)-1` that `music_pos_time = -1` stores. -/
def NEVER_TICKED : Nat := 2 ^ 64 - 1

/-! ## Single-precision values -/

/-- Rounding of a rational to the nearest integer, ties to the even one. -/
def roundHalfEven (q : Rat) : Int :=
  if q - ⌊q⌋ < 1 / 2 then ⌊q⌋
  else if 1 / 2 < q - ⌊q⌋ then ⌊q⌋ + 1
  else if ⌊q⌋ % 2 = 0 then ⌊q⌋ else ⌊q⌋ + 1

/-- The power of two `2 ^ k` as a rational. -/
def pow2 (k : Int) : Rat := if 0 ≤ k then (2 ^ k.toNat : Nat) else 1 / (2 ^ (-k).toNat : Nat)

/-- Binary logarithm by repeated halving, at most `fuel` times. -/
def log2Fuel : Nat → Nat → Nat
  | 0, _ => 0
  | fuel + 1, n => if n < 2 then 0 else log2Fuel fuel (n / 2) + 1

/-- The position of the leading bit of `n` (`0` for `n = 0`). -/
def ilog2 (n : Nat) : Nat := log2Fuel n n

/-- Exponent of the single-precision binade of `r`: the `e` with
`2 ^ e <= |r| < 2 ^ (e + 1)`, and `-126` for the subnormal range. -/
def floatExponent (r : Rat) : Int :=
  let e0 : Int := (ilog2 r.num.natAbs : Int) - (ilog2 r.den : Int)
  let e : Int := if pow2 e0 ≤ |r| then e0 else e0 - 1
  max e (-126)

/-- Conversion of a real to C `float`: the nearest multiple of the unit in the
last place `2 ^ (e - 23)` of its binade, ties to even. -/
def f32 (r : Rat) : Rat :=
  roundHalfEven (r / pow2 (floatExponent r - 23)) * pow2 (floatExponent r - 23)

/-! ## Engine commands -/

/-- Record a command in the engine trace. -/
def Mixer.record (m : Mixer) (c : Call) : Mixer := { m with log := c :: m.log }

/-- Engine call `Mix_HookMusicFinished(h)`. -/
def Mix_HookMusicFinished (m : Mixer) (h : Hook) : Mixer :=
  { m.record (.hookMusicFinished h) with hook := h }

/-- Engine call `Mix_SetPostMix(f, NULL)`; `active` tells whether `f` is
`mixmusic_callback` or `NULL`. -/
def Mix_SetPostMix (m : Mixer) (active : Bool) : Mixer :=
  { m.record (.setPostMix active) with postmix := active }

/-- Engine call `Mix_VolumeMusic(v)` with `v` other than the query value `-1`:
negative values leave the volume, larger ones are capped at `MIX_MAX_VOLUME`. -/
def Mix_VolumeMusic (m : Mixer) (v : Int) : Mixer :=
  { m.record (.volumeMusic v) with volume := if v < 0 then m.volume else min v 128 }

/-- Engine call `Mix_FadeInMusicPos`; `val` is what the engine returns.  A start
that succeeded leaves the channel unpaused. -/
def Mix_FadeInMusicPos (m : Mixer) (h : Handle) (loops fade_ms : Int) (pos : Rat)
    (val : Int) : Mixer :=
  { m.record (.fadeInMusicPos h loops fade_ms pos) with
    paused := if val = 0 then false else m.paused }

/-- Engine call `Mix_PlayMusic`; `val` is what the engine returns. -/
def Mix_PlayMusic (m : Mixer) (h : Handle) (loops : Int) (val : Int) : Mixer :=
  { m.record (.playMusic h loops) with paused := if val = 0 then false else m.paused }

/-- Engine call `Mix_PauseMusic()`. -/
def Mix_PauseMusic (m : Mixer) : Mixer := { m.record .pauseMusic with paused := true }

/-- Engine call `Mix_ResumeMusic()`. -/
def Mix_ResumeMusic (m : Mixer) : Mixer := { m.record .resumeMusic with paused := false }

/-- Engine call `Mix_FreeMusic(h)`. -/
def Mix_FreeMusic (m : Mixer) (h : Handle) : Mixer := m.record (.freeMusic h)

/-- Engine call `Mix_SetMusicPosition(pos)`. -/
def Mix_SetMusicPosition (m : Mixer) (pos : Rat) : Mixer := m.record (.setMusicPosition pos)

/-- Engine call `Mix_QuerySpec(&music_frequency, &music_format, &music_channels)`:
the three globals are written when the audio device is open (`some`), and left
alone otherwise. -/
def Mix_QuerySpec (s : MusicState) (spec : Option (Int × Nat × Int)) : MusicState :=
  match spec with
  | none => s
  | some (freq, format, channels) =>
    { s with music_frequency := freq, music_format := format % 2 ^ 16,
             music_channels := channels }

/-- The most recent start of playback in a trace: resource, loop count, offset. -/
def lastStart : List Call → Option (Handle × Int × Rat)
  | [] => none
  | .fadeInMusicPos m loops _ pos :: _ => some (m, loops, pos)
  | .playMusic m loops :: _ => some (m, loops, 0)
  | _ :: rest => lastStart rest

/-- Overwrite one `pgMusicObject` of the heap. -/
def MusicState.setObj (s : MusicState) (o : ObjId) (v : pgMusicObject) : MusicState :=
  { s with objs := Function.update s.objs o v }

/-! ## Completion hooks and `Mix_HaltMusic` -/

/-- The completion hook `endmusic_callback`; `val` is what `Mix_PlayMusic`
returns when a queued resource is started. -/
def endmusic_callback (s : MusicState) (val : Int) : MusicState :=
  let s1 : MusicState :=
    if s.endmusic_event ≠ 0 ∧ s.video_init = true then
      { s with posted := s.endmusic_event :: s.posted }
    else s
  match s1.queue_music with
  | some q =>
    let m0 : Mixer :=
      match s1.current_music with
      | some c => Mix_FreeMusic s1.mixer c
      | none => s1.mixer
    let m1 := Mix_HookMusicFinished m0 .endmusic_callback
    let m2 := Mix_PlayMusic m1 q s1.queue_music_loops val
    { s1 with current_music := some q, queue_music := none, music_pos := 0,
              queue_music_loops := 0, mixer := m2 }
  | none =>
    { s1 with music_pos_time := NEVER_TICKED, mixer := Mix_SetPostMix s1.mixer false }

/-- The completion hook `pgmusic_endmusic_callback`. -/
def pgmusic_endmusic_callback (s : MusicState) : Option MusicState :=
  match s.current_music_obj with
  | none => none
  | some cur => some (s.setObj cur { s.objs cur with ended := 1 })

/-- Engine call `Mix_HaltMusic()`.  `playing` tells whether the engine had
music to halt; when it had, the engine runs the hook registered with
`Mix_HookMusicFinished` before it returns.  `val` is what `Mix_PlayMusic`
answers if that hook starts a queued resource. -/
def Mix_HaltMusic (s : MusicState) (playing : Bool) (val : Int) : Option MusicState :=
  let s1 : MusicState := { s with mixer := s.mixer.record .haltMusic }
  if playing = true then
    match s1.mixer.hook with
    | .unset => some s1
    | .endmusic_callback => some (endmusic_callback s1 val)
    | .pgmusic_endmusic_callback => pgmusic_endmusic_callback s1
  else some s1

/-! ## Music objects -/

/-- What the engine answers during one `pgmusic_play`: whether music was
playing when the call began, the result of `Mix_PlayMusic` should a halt run
`endmusic_callback` with an entry queued, the result of `Mix_GetMusicPosition`
on the previous owner, the result of `Mix_QuerySpec`, and the result of
`Mix_FadeInMusicPos`. -/
structure PlayAnswers where
  playing : Bool
  hookVal : Int
  enginePos : Rat
  spec : Option (Int × Nat × Int)
  val : Int

/-- The block of `pgmusic_play` under "Check if any music is currently playing"
(the `if`/`else if` that hands the channel to `self`).  After the first
`Mix_HaltMusic` nothing is playing any more.  The result is `none` when the
block, or a hook run by `Mix_HaltMusic`, dereferences `current_music_obj` while
it is `NULL`. -/
def pgmusic_play_take_channel (s : MusicState) (self : ObjId) (a : PlayAnswers) :
    Option MusicState :=
  if s.current_music_obj ≠ none ∨ s.current_music ≠ none then
    -- To prevent the queue_music from playing, free it before stopping.
    let discarded : Option (MusicState × Bool) :=
      match s.current_music, s.queue_music with
      | some _, some q =>
        (Mix_HaltMusic
          { s with mixer := Mix_FreeMusic s.mixer q, queue_music := none,
                   queue_music_loops := 0 } a.playing a.hookVal).map (fun s1 => (s1, false))
      | _, _ => some (s, a.playing)
    match discarded with
    | none => none
    | some (s1, playing1) =>
      if s1.current_music_obj ≠ some self then
        match Mix_HaltMusic s1 playing1 a.hookVal with
        | none => none
        | some s2 =>
          if s2.mixer_2_6 = true then
            match s2.current_music_obj with
            | none => none
            | some prev =>
              let p := s2.objs prev
              some { s2.setObj prev
                       { p with ended := 0, paused := 1, position := f32 a.enginePos }
                     with current_music_obj := some self }
          else some { s2 with current_music_obj := some self }
      else some s1
  else if s.current_music_obj = none then some { s with current_music_obj := some self }
  else some s

/-- The method `pgmusic_play(self, loops, startpos, fade_in)`.  `startpos` and
`fade_in` are the Python numbers passed; the format `|iff` stores them into C
`float`s. -/
def pgmusic_play (s : MusicState) (self : ObjId) (loops : Int) (startpos fade_in : Rat)
    (a : PlayAnswers) : Option (MusicState × Except PyErr Unit) :=
  let startpos : Rat := f32 startpos
  let fade_in : Rat := f32 fade_in
  if s.mixer_init = false then some (s, .error .mixer_not_initialized)
  else
  match (s.objs self).music with
  | none => some (s, .error .music_not_loaded)
  | some music =>
    match pgmusic_play_take_channel s self a with
    | none => none
    | some s3 =>
      let s4 := Mix_QuerySpec s3 a.spec
      let me := s4.objs self
      -- Resume from where the music paused before switching to the new music
      let resume : Bool := me.paused ≠ 0 ∧ me.ended = 0
      let me1 : pgMusicObject := if resume then { me with paused := 0 } else me
      let startpos1 : Rat := if resume ∧ startpos = 0 then me.position else startpos
      let me2 : pgMusicObject := { me1 with ended := 0 }
      let s5 := s4.setObj self me2
      let m1 := Mix_HookMusicFinished s5.mixer .pgmusic_endmusic_callback
      let m2 :=
        Mix_FadeInMusicPos m1 music loops (truncToInt (f32 (fade_in * 1000))) startpos1 a.val
      let m3 := Mix_VolumeMusic m2 (truncToInt (f32 (me2.volume * 128)))
      let s6 : MusicState := { s5 with mixer := m3 }
      if a.val = -1 then some (s6, .error .sdl_error) else some (s6, .ok ())

/-- Result of a C setter: the returned `int` and the Python exception left set. -/
structure SetterResult where
  ret : Int
  err : Option PyErr
  deriving DecidableEq

/-- The setter `pgmusic_set_position(self, arg)`; `arg` is the value of
`PyFloat_AsDouble(arg)` and `seek` is what `Mix_SetMusicPosition` returns.
`MIXER_INIT_CHECK` expands to `return RAISE(...)`, a `NULL` that the `int`
return type turns into `0`.  The engine receives the `double`, the field the
`float`. -/
def pgmusic_set_position (s : MusicState) (self : ObjId) (arg : Rat) (seek : Int) :
    MusicState × SetterResult :=
  if s.mixer_init = false then (s, ⟨0, some .mixer_not_initialized⟩)
  else
    let music_position : Rat := if arg < 0 then 0 else arg
    if some self = s.current_music_obj then
      let s1 : MusicState := { s with mixer := Mix_SetMusicPosition s.mixer music_position }
      if seek ≠ -1 then
        (s1.setObj self { s1.objs self with position := f32 music_position }, ⟨0, none⟩)
      else (s1, ⟨0, none⟩)
    else
      (s.setObj self { s.objs self with position := f32 music_position }, ⟨0, none⟩)

/-! ## Legacy module functions -/

/-- State of the module when it is loaded: the static initialisers of the
globals, an engine on which nothing was called, and a given heap. -/
def initial (mixer_init video_init mixer_2_6 : Bool) (objs : ObjId → pgMusicObject) :
    MusicState where
  mixer_init := mixer_init
  video_init := video_init
  mixer_2_6 := mixer_2_6
  objs := objs
  current_music_obj := none
  current_music := none
  queue_music := none
  queue_music_loops := 0
  endmusic_event := 0
  music_pos := 0
  music_pos_time := NEVER_TICKED
  music_frequency := 0
  music_format := 0
  music_channels := 0
  mixer := { paused := false, volume := 128, hook := .unset, postmix := false, log := [] }
  posted := []

/-- The render hook `mixmusic_callback(udata, stream, len)`; `now` is the value
of `PG_GetTicks()`. -/
def mixmusic_callback (s : MusicState) (len : Int) (now : Nat) : MusicState :=
  if s.mixer.paused = false then
    { s with music_pos := u64 (s.music_pos + len), music_pos_time := u64 now }
  else s

/-- The module function `music_play(loops, start, fade_ms)`; `startpos` is the
Python number passed, which the format `|ifi` stores into a C `float`.  Engine
answers: `spec` for `Mix_QuerySpec`, `now` for `PG_GetTicks`, `val` for
`Mix_FadeInMusicPos`. -/
def music_play (s : MusicState) (loops : Int) (startpos : Rat) (fade_ms : Int)
    (spec : Option (Int × Nat × Int)) (now : Nat) (val : Int) :
    MusicState × Except PyErr Unit :=
  if s.mixer_init = false then (s, .error .mixer_not_initialized)
  else
  match s.current_music with
  | none => (s, .error .music_not_loaded)
  | some cur =>
    let m1 := Mix_HookMusicFinished s.mixer .endmusic_callback
    let m2 := Mix_SetPostMix m1 true
    let s1 := Mix_QuerySpec { s with mixer := m2 } spec
    let s2 : MusicState := { s1 with music_pos := 0, music_pos_time := u64 now }
    let volume := s2.mixer.volume
    let m3 := Mix_FadeInMusicPos s2.mixer cur loops fade_ms (f32 startpos) val
    let m4 := Mix_VolumeMusic m3 volume
    let s3 : MusicState := { s2 with mixer := m4 }
    if val = -1 then (s3, .error .sdl_error) else (s3, .ok ())

/-- The module function `music_get_pos()`; `now` is the value of `PG_GetTicks()`.
The result is the Python integer returned.  `music_pos_time` is a `Uint64`, so
the test `music_pos_time < 0` compares naturals.  The denominator is a product
of `int`s, each multiplication wrapping to 32 bits, widened to `long`. -/
def music_get_pos (s : MusicState) (now : Nat) : Except PyErr Int :=
  if s.mixer_init = false then .error .mixer_not_initialized
  else
    let intermediate_step : Nat := (s.music_format &&& 0xff) >>> 3
    let denominator : Int :=
      i32 (i32 (s.music_channels * s.music_frequency) * intermediate_step)
    if s.music_pos_time < 0 ∨ denominator = 0 then .ok (-1)
    else
      let ticks : Nat := u64 (i64 (u64 (1000 * s.music_pos) / u64 denominator : Nat))
      let ticks1 : Nat :=
        if s.mixer.paused = false then
          u64 ((ticks : Int) + u64 ((u64 now : Int) - s.music_pos_time))
        else ticks
      .ok ticks1

/-- What the collaborators of `_load_music` answer: whether `pgRWops_FromObject`
produced a stream, and the resource `Mix_LoadMUSType_RW` decoded from it. -/
structure LoadAnswer where
  rw : Bool
  decoded : Option Handle
  deriving DecidableEq

/-- The helper `_load_music(obj, namehint)`. -/
def _load_music (s : MusicState) (a : LoadAnswer) : Except PyErr Handle :=
  if s.mixer_init = false then .error .mixer_not_initialized
  else if a.rw = false then .error .rwops_error
  else
    match a.decoded with
    | none => .error .sdl_error
    | some new_music => .ok new_music

/-- The module function `music_load(filename, namehint)`. -/
def music_load (s : MusicState) (a : LoadAnswer) : MusicState × Except PyErr Unit :=
  if s.mixer_init = false then (s, .error .mixer_not_initialized)
  else
    match _load_music s a with
    | .error e => (s, .error e)
    | .ok new_music =>
      let s1 : MusicState :=
        match s.current_music with
        | some c => { s with mixer := Mix_FreeMusic s.mixer c, current_music := none }
        | none => s
      let s2 : MusicState :=
        match s1.queue_music with
        | some q =>
          { s1 with mixer := Mix_FreeMusic s1.mixer q, queue_music := none,
                    queue_music_loops := 0 }
        | none => s1
      ({ s2 with current_music := some new_music }, .ok ())

/-- The module function `music_queue(filename, namehint, loops)`. -/
def music_queue (s : MusicState) (a : LoadAnswer) (loops : Int) :
    MusicState × Except PyErr Unit :=
  if s.mixer_init = false then (s, .error .mixer_not_initialized)
  else
    let s1 : MusicState := { s with queue_music_loops := loops }
    match _load_music s1 a with
    | .error e => (s1, .error e)
    | .ok local_queue_music =>
      -- Free any existing queued music.
      let m : Mixer :=
        match s1.queue_music with
        | some q => Mix_FreeMusic s1.mixer q
        | none => s1.mixer
      ({ s1 with mixer := m, queue_music := some local_queue_music }, .ok ())

/-- The initialiser `pgmusic_init(self, filename, namehint)`; the returned `int`
is `0` on success and `-1` on failure. -/
def pgmusic_init (s : MusicState) (self : ObjId) (a : LoadAnswer) : MusicState × Int :=
  if s.mixer_init = false then (s, -1)
  else
    match _load_music s a with
    | .error _ => (s, -1)
    | .ok new_music =>
      (s.setObj self { music := some new_music, volume := 1, paused := 0, ended := 0,
                       position := 0 }, 0)

/-! ## Sample states -/

/-- A `pgMusicObject` as `pgmusic_init` leaves it after decoding resource `h`. -/
def loadedObject (h : Handle) : pgMusicObject :=
  { music := some h, volume := 1, position := 0, paused := 0, ended := 0 }

/-- A heap in which object `i` wraps resource `100 + i`. -/
def sampleHeap : ObjId → pgMusicObject := fun i => loadedObject (100 + i)

/-- The module just loaded, mixer and video initialised, SDL_mixer 2.6 or later,
over `sampleHeap`. -/
def sampleState : MusicState := initial true true true sampleHeap

/-- Engine answers of a call made while nothing plays, on a 44100 Hz, 16-bit,
stereo device, with a start that succeeds. -/
def idleAnswers : PlayAnswers :=
  { playing := false, hookVal := 0, enginePos := 0, spec := some (44100, 0x8010, 2), val := 0 }

/-- Engine answers of a call made while music plays at position `pos`. -/
def playingAnswers (pos : Rat) : PlayAnswers :=
  { playing := true, hookVal := 0, enginePos := pos, spec := some (44100, 0x8010, 2), val := 0 }

/-- The state `sampleState` after `Music 0` was played from the start. -/
def playingState : MusicState :=
  match pgmusic_play sampleState 0 0 0 0 idleAnswers with
  | some (s, _) => s
  | none => sampleState

/-- The state `playingState` after `Music 1` took the channel while the engine
reported position `pos` for `Music 0`. -/
def suspendedAt (pos : Rat) : MusicState :=
  match pgmusic_play playingState 1 0 0 0 (playingAnswers pos) with
  | some (s, _) => s
  | none => playingState

/-- The state `suspendedAt (7/2)`. -/
def suspendedState : MusicState := suspendedAt (7 / 2)

/-- The state `sampleState` after resource `2` was queued with `loops = 3`. -/
def queuedState : MusicState := (music_queue sampleState ⟨true, some 2⟩ 3).1

/-- The state `sampleState` after resource `1` was loaded as legacy music and
resource `2` was queued with `loops = 2`. -/
def legacyQueuedState : MusicState :=
  (music_queue (music_load sampleState ⟨true, some 1⟩).1 ⟨true, some 2⟩ 2).1

/-! ## Render thread and clock -/

/-- What can happen between two position queries when no command is issued: the
render thread delivers `len` bytes, or the monotonic clock advances. -/
inductive RenderEvent
  | tick (len : Int)
  | advance (dt : Nat)
  deriving DecidableEq

/-- One event applied to the state and the clock. -/
def renderStep (sn : MusicState × Nat) : RenderEvent → MusicState × Nat
  | .tick len => (mixmusic_callback sn.1 len sn.2, sn.2)
  | .advance dt => (sn.1, sn.2 + dt)

/-- A sequence of events applied in order. -/
def renderRun (sn : MusicState × Nat) (evs : List RenderEvent) : MusicState × Nat :=
  evs.foldl renderStep sn

/-- The denominator `music_channels * music_frequency * ((music_format & 0xff) >> 3)`
of `music_get_pos`, as the C expression computes it: a product of `int`s, each
multiplication wrapping to 32 bits. -/
def formatDenominator (s : MusicState) : Int :=
  i32 (i32 (s.music_channels * s.music_frequency) *
    (((s.music_format &&& 0xff) >>> 3 : Nat) : Int))

/-- The byte-derived milliseconds `1000 * music_pos / denominator` as a number. -/
def byteMs (s : MusicState) : Int := 1000 * (s.music_pos : Int) / formatDenominator s

/-- The state `sampleState` after legacy resource `1` was loaded and played at
clock `0` on a 44100 Hz, 16-bit, stereo device. -/
def legacyPlayingState : MusicState :=
  (music_play (music_load sampleState ⟨true, some 1⟩).1 0 0 0 (some (44100, 0x8010, 2)) 0 0).1

/-- The state `legacyPlayingState` after the render thread delivered 4096 bytes
at clock `50`. -/
def legacyTickedState : MusicState := mixmusic_callback legacyPlayingState 4096 50

/-- The state `legacyPlayingState` after the engine reported completion with
nothing queued. -/
def legacyEndedState : MusicState := endmusic_callback legacyPlayingState 0

/-- The state `playingState` (owner `Music 0`) after legacy resource `1` was
loaded and played at clock `0`, and the render thread delivered 4096 bytes at
clock `50`. -/
def mixedState : MusicState :=
  mixmusic_callback
    (music_play (music_load playingState ⟨true, some 1⟩).1 0 0 0
      (some (44100, 0x8010, 2)) 0 0).1 4096 50

/-- Whether, along a run of events from state and clock `sn`, no 64-bit value
wraps at a render tick: `len >= 0`, the clock is below `2 ^ 64`, and
`1000 * music_pos` stays below `2 ^ 64`. -/
def ticksInRange (sn : MusicState × Nat) : List RenderEvent → Bool
  | [] => true
  | .tick len :: rest =>
    decide (0 ≤ len) && decide (sn.2 < 2 ^ 64) &&
    decide (1000 * ((sn.1.music_pos : Int) + len) < 2 ^ 64) &&
    ticksInRange (renderStep sn (.tick len)) rest
  | .advance dt :: rest => ticksInRange (renderStep sn (.advance dt)) rest

/-- Whether a run has no render tick, only advances of the clock. -/
def clockOnly : List RenderEvent → Bool
  | [] => true
  | .tick _ :: _ => false
  | .advance _ :: rest => clockOnly rest

/-! ## Volume and pause setters of Music objects -/

/-- The setter `pgmusic_set_volume(self, arg)`.  `arg` is `some v` for a Python
float of value `v` and `none` for an object that fails `PyFloat_Check`.  The
`double` is stored into the `float` field before it is clamped. -/
def pgmusic_set_volume (s : MusicState) (self : ObjId) (arg : Option Rat) :
    MusicState × SetterResult :=
  match arg with
  | none => (s, ⟨-1, some .type_error⟩)
  | some v =>
    let stored : Rat := f32 v
    let volume : Rat := if stored < 0 then 0 else if stored > 1 then 1 else stored
    let s1 := s.setObj self { s.objs self with volume := volume }
    if some self = s1.current_music_obj then
      ({ s1 with mixer :=
          Mix_VolumeMusic s1.mixer (truncToInt (f32 ((s1.objs self).volume * 128))) },
        ⟨0, none⟩)
    else (s1, ⟨0, none⟩)

/-- The getter `pgmusic_get_volume(self)`. -/
def pgmusic_get_volume (s : MusicState) (self : ObjId) : Rat := (s.objs self).volume

/-- The setter `pgmusic_set_paused(self, arg)`; `paused` is the value of
`PyObject_IsTrue(arg)` (`1` for a true object, `0` for a false one) and
`enginePos` is what `Mix_GetMusicPosition(self->music)` answers. -/
def pgmusic_set_paused (s : MusicState) (self : ObjId) (paused : Int) (enginePos : Rat) :
    MusicState × SetterResult :=
  if s.mixer_init = false then (s, ⟨0, some .mixer_not_initialized⟩)
  else if s.mixer_2_6 = true then
    let s1 := s.setObj self { s.objs self with paused := paused }
    if some self = s1.current_music_obj then
      if paused ≠ 0 then
        let s2 : MusicState := { s1 with mixer := Mix_PauseMusic s1.mixer }
        (s2.setObj self { s2.objs self with position := f32 enginePos }, ⟨0, none⟩)
      else ({ s1 with mixer := Mix_ResumeMusic s1.mixer }, ⟨0, none⟩)
    else (s1, ⟨0, none⟩)
  else (s, ⟨-1, some .not_implemented⟩)

/-- The getter `pgmusic_get_paused(self)`; the result is the argument of
`PyBool_FromLong`. -/
def pgmusic_get_paused (s : MusicState) (self : ObjId) : Except PyErr Int :=
  if s.mixer_init = false then .error .mixer_not_initialized
  else
    let paused := (s.objs self).paused
    if some self = s.current_music_obj then .ok (if s.mixer.paused = true then 1 else 0)
    else .ok paused

/-- A state with its engine trace emptied: what is left is the coordinator
state, the Music objects and the observable engine state. -/
def dropTrace (s : MusicState) : MusicState :=
  { s with mixer := { s.mixer with log := [] } }

/-- A `pgMusicObject` as `PyType_GenericNew` leaves it when no resource was
loaded into it: every field zero. -/
def unloadedObject : pgMusicObject :=
  { music := none, volume := 0, position := 0, paused := 0, ended := 0 }

/-- The state `sampleState` with `Music 5` left without a resource. -/
def unloadedState : MusicState := sampleState.setObj 5 unloadedObject

/-- The state `sampleState` after legacy resource `1` was loaded; no Music
object has owned the channel. -/
def legacyLoadedState : MusicState := (music_load sampleState ⟨true, some 1⟩).1

/-- The state `legacyLoadedState` after the legacy music was played at clock `0`
on a device for which `Mix_QuerySpec` reports `2 ^ 30` Hz, 16 bit and 2
channels, and the render thread delivered 42949673 bytes at clock `0`. -/
def wideFormatState : MusicState :=
  mixmusic_callback
    (music_play legacyLoadedState 0 0 0 (some (1073741824, 0x8010, 2)) 0 0).1 42949673 0

/-- The enumeration `Mix_MusicType` of SDL_mixer, restricted to the values
`_get_type_from_hint` can return. -/
inductive Mix_MusicType
  | MUS_NONE
  | MUS_WAV
  | MUS_MOD
  | MUS_MID
  | MUS_OGG
  | MUS_MP3
  | MUS_FLAC
  | MUS_OPUS
  | MUS_WAVPACK
  | MUS_GME
  deriving DecidableEq, Repr

/-- The C library function `strrchr(str, c)` on a string without its
terminator: the suffix that starts at the last occurrence of `c`, or `none`
(`NULL`) when `c` does not occur. -/
def strrchr (str : List Char) (c : Char) : Option (List Char) :=
  match str with
  | [] => none
  | x :: xs =>
    match strrchr xs c with
    | some r => some r
    | none => if x = c then some (x :: xs) else none

/-- The SDL function `SDL_strcasecmp(a, b)`: comparison of the two strings
character by character after ASCII case folding; `0` when they are equal up to
case. -/
def SDL_strcasecmp : List Char → List Char → Int
  | [], [] => 0
  | [], _ :: _ => -1
  | _ :: _, [] => 1
  | a :: as, b :: bs =>
    if a.toLower = b.toLower then SDL_strcasecmp as bs
    else (a.toLower.toNat : Int) - (b.toLower.toNat : Int)

/-- The function `_get_type_from_hint(namehint)`; `none` is the `NULL` hint and
`v28` is the compile-time test `SDL_MIXER_VERSION_ATLEAST(2, 8, 0)`, under which
the `WV` and GME branches are compiled. -/
def _get_type_from_hint (v28 : Bool) (hint : Option (List Char)) : Mix_MusicType :=
  match hint with
  | none => .MUS_NONE
  | some hint =>
    -- Adjusts namehint into a mere file extension component
    let namehint : List Char :=
      match strrchr hint '.' with
      | some dot => dot.drop 1
      | none => hint
    if SDL_strcasecmp namehint "WAV".toList = 0 then .MUS_WAV
    else if SDL_strcasecmp namehint "MID".toList = 0 ∨
            SDL_strcasecmp namehint "MIDI".toList = 0 ∨
            SDL_strcasecmp namehint "KAR".toList = 0 then .MUS_MID
    else if SDL_strcasecmp namehint "OGG".toList = 0 then .MUS_OGG
    else if SDL_strcasecmp namehint "OPUS".toList = 0 then .MUS_OPUS
    else if SDL_strcasecmp namehint "FLAC".toList = 0 then .MUS_FLAC
    else if v28 = true ∧ SDL_strcasecmp namehint "WV".toList = 0 then .MUS_WAVPACK
    else if SDL_strcasecmp namehint "MPG".toList = 0 ∨
            SDL_strcasecmp namehint "MPEG".toList = 0 ∨
            SDL_strcasecmp namehint "MP3".toList = 0 ∨
            SDL_strcasecmp namehint "MAD".toList = 0 then .MUS_MP3
    else if SDL_strcasecmp namehint "669".toList = 0 ∨
            SDL_strcasecmp namehint "AMF".toList = 0 ∨
            SDL_strcasecmp namehint "AMS".toList = 0 ∨
            SDL_strcasecmp namehint "DBM".toList = 0 ∨
            SDL_strcasecmp namehint "DSM".toList = 0 ∨
            SDL_strcasecmp namehint "FAR".toList = 0 ∨
            SDL_strcasecmp namehint "GDM".toList = 0 ∨
            SDL_strcasecmp namehint "IT".toList = 0 ∨
            SDL_strcasecmp namehint "MED".toList = 0 ∨
            SDL_strcasecmp namehint "MDL".toList = 0 ∨
            SDL_strcasecmp namehint "MOD".toList = 0 ∨
            SDL_strcasecmp namehint "MOL".toList = 0 ∨
            SDL_strcasecmp namehint "MTM".toList = 0 ∨
            SDL_strcasecmp namehint "NST".toList = 0 ∨
            SDL_strcasecmp namehint "OKT".toList = 0 ∨
            SDL_strcasecmp namehint "PTM".toList = 0 ∨
            SDL_strcasecmp namehint "S3M".toList = 0 ∨
            SDL_strcasecmp namehint "STM".toList = 0 ∨
            SDL_strcasecmp namehint "ULT".toList = 0 ∨
            SDL_strcasecmp namehint "UMX".toList = 0 ∨
            SDL_strcasecmp namehint "WOW".toList = 0 ∨
            SDL_strcasecmp namehint "XM".toList = 0 then .MUS_MOD
    else if v28 = true ∧
            (SDL_strcasecmp namehint "GBS".toList = 0 ∨
             SDL_strcasecmp namehint "M3U".toList = 0 ∨
             SDL_strcasecmp namehint "NSF".toList = 0 ∨
             SDL_strcasecmp namehint "SPC".toList = 0 ∨
             SDL_strcasecmp namehint "VGM".toList = 0) then .MUS_GME
    else .MUS_NONE

/-- Text after the last `.` of a hint; the whole hint when it has no `.`. -/
def extensionOf (hint : List Char) : List Char :=
  (hint.reverse.takeWhile (fun c => c ≠ '.')).reverse

/-- ASCII case folding of a string. -/
def asciiLower (str : List Char) : List Char := str.map Char.toLower

/-- The fixed table of extensions: WAV; MID, MIDI, KAR; OGG; OPUS; FLAC; WV;
MPG, MPEG, MP3, MAD; the MOD family; the GME family.  The `WV` and GME rows
exist from SDL_mixer 2.8 on. -/
def typeTable (v28 : Bool) : List (String × Mix_MusicType) :=
  [("WAV", .MUS_WAV), ("MID", .MUS_MID), ("MIDI", .MUS_MID), ("KAR", .MUS_MID),
   ("OGG", .MUS_OGG), ("OPUS", .MUS_OPUS), ("FLAC", .MUS_FLAC)] ++
  (if v28 = true then [("WV", .MUS_WAVPACK)] else []) ++
  [("MPG", .MUS_MP3), ("MPEG", .MUS_MP3), ("MP3", .MUS_MP3), ("MAD", .MUS_MP3)] ++
  [("669", .MUS_MOD), ("AMF", .MUS_MOD), ("AMS", .MUS_MOD), ("DBM", .MUS_MOD), ("DSM", .MUS_MOD), ("FAR", .MUS_MOD), ("GDM", .MUS_MOD), ("IT", .MUS_MOD),
   ("MED", .MUS_MOD), ("MDL", .MUS_MOD), ("MOD", .MUS_MOD), ("MOL", .MUS_MOD), ("MTM", .MUS_MOD), ("NST", .MUS_MOD), ("OKT", .MUS_MOD), ("PTM", .MUS_MOD),
   ("S3M", .MUS_MOD), ("STM", .MUS_MOD), ("ULT", .MUS_MOD), ("UMX", .MUS_MOD), ("WOW", .MUS_MOD), ("XM", .MUS_MOD)] ++
  (if v28 = true then
    [("GBS", .MUS_GME), ("M3U", .MUS_GME), ("NSF", .MUS_GME), ("SPC", .MUS_GME), ("VGM", .MUS_GME)]
   else [])

/-- Lookup of an extension in a table of rows, up to ASCII case: the type of the
first row that matches, `MUS_NONE` when no row does. -/
def tableLookup (table : List (String × Mix_MusicType)) (ext : List Char) : Mix_MusicType :=
  match table.find? (fun row => decide (asciiLower ext = asciiLower row.1.toList)) with
  | some row => row.2
  | none => .MUS_NONE

/-- Type-hint resolution as a table lookup: `MUS_NONE` for an absent hint,
otherwise the lookup of the text after the last `.` in the fixed table. -/
def typeOfHint (v28 : Bool) (hint : Option (List Char)) : Mix_MusicType :=
  match hint with
  | none => .MUS_NONE
  | some h => tableLookup (typeTable v28) (extensionOf h)

/-! ## What a halt inside `pgmusic_play` can change -/

/-- Whether the `Mix_HaltMusic` that follows the discard of the queue entry runs
`pgmusic_endmusic_callback` on `self`: legacy music and a queue entry are
present, `self` is the owner, music is playing and the hook of Music objects
is the registered one. -/
def endedByHalt (s : MusicState) (self : ObjId) (a : PlayAnswers) : Bool :=
  decide (s.current_music ≠ none ∧ s.queue_music ≠ none ∧ s.current_music_obj = some self ∧
    a.playing = true ∧ s.mixer.hook = .pgmusic_endmusic_callback)

/-- Whether the `Mix_HaltMusic` that stops the previous owner runs
`endmusic_callback` with an entry queued: no legacy music, a queue entry,
another Music object as owner, music playing and the legacy hook registered. -/
def promotedByHalt (s : MusicState) (self : ObjId) (a : PlayAnswers) : Bool :=
  decide (s.current_music = none ∧ s.queue_music ≠ none ∧ s.current_music_obj ≠ none ∧
    s.current_music_obj ≠ some self ∧ a.playing = true ∧ s.mixer.hook = .endmusic_callback)


/-! ## Ownership hand-over in `pgmusic_play` -/

set_option maxHeartbeats 4000000 in
/-- The hand-over succeeds when a previous owner exists or no legacy music is
loaded; it makes `self` the owner, changes of `self` at most the `ended` flag
(set by the hook when the halt ends `self`), and of the byte count at most by
the promotion of a queue entry inside the halt; on SDL_mixer 2.6 or later a
previous owner other than `self` is left suspended at the engine position. -/
theorem take_channel_some (s : MusicState) (self : ObjId) (a : PlayAnswers)
    (hsafe : s.current_music_obj = none → s.current_music = none) :
    ∃ s3, pgmusic_play_take_channel s self a = some s3 ∧
      s3.current_music_obj = some self ∧
      s3.objs self = { s.objs self with
        ended := if endedByHalt s self a = true then 1 else (s.objs self).ended } ∧
      s3.mixer_init = s.mixer_init ∧ s3.mixer_2_6 = s.mixer_2_6 ∧
      s3.music_pos = (if promotedByHalt s self a = true then 0 else s.music_pos) ∧
      (∀ prev, s.current_music_obj = some prev → prev ≠ self → s.mixer_2_6 = true →
        s3.objs prev =
          { s.objs prev with ended := 0, paused := 1, position := f32 a.enginePos }) := by
  obtain ⟨playing, hookVal, enginePos, spec, val⟩ := a
  cases hc : s.current_music <;> cases hq : s.queue_music <;>
    cases ho : s.current_music_obj <;> cases h26 : s.mixer_2_6 <;>
    cases playing <;> cases hh : s.mixer.hook <;>
    simp [pgmusic_play_take_channel, Mix_HaltMusic, endmusic_callback,
      pgmusic_endmusic_callback, endedByHalt, promotedByHalt, hc, hq, ho, h26, hh,
      MusicState.setObj, Mixer.record, Mix_FreeMusic, Mix_SetPostMix, Mix_PlayMusic,
      Mix_HookMusicFinished] at hsafe ⊢
  all_goals
    rename_i prev
    by_cases hp : prev = self <;> by_cases he : s.endmusic_event = 0 <;>
      cases hv : s.video_init <;>
      simp [hp, he, hv, hc, hq, ho, h26, hh, Function.update]
  all_goals (intro h; exact absurd h.symm hp)

/-- The hand-over on an idle coordinator (no owner, no legacy music) only
installs the owner. -/
theorem take_channel_idle (s : MusicState) (self : ObjId) (a : PlayAnswers)
    (hlegacy : s.current_music = none) (howner : s.current_music_obj = none) :
    pgmusic_play_take_channel s self a = some { s with current_music_obj := some self } := by
  simp [pgmusic_play_take_channel, hlegacy, howner]

/-- After the hand-over, `pgmusic_play` returns: it reports success exactly when
the engine start did not return `-1`, keeps owner, byte count and legacy
pointer, touches no object but `self`, clears `self.ended`, and starts the
engine at the offset computed from the fields of `self` after the hand-over. -/
theorem play_after_take_channel (s s3 : MusicState) (self : ObjId) (h : Handle)
    (loops : Int) (startpos fade_in : Rat) (a : PlayAnswers)
    (hinit : s.mixer_init = true) (hm : (s.objs self).music = some h)
    (h3 : pgmusic_play_take_channel s self a = some s3) :
    ∃ s1 r, pgmusic_play s self loops startpos fade_in a = some (s1, r) ∧
      (r = .ok () ↔ a.val ≠ -1) ∧
      s1.current_music_obj = s3.current_music_obj ∧ s1.music_pos = s3.music_pos ∧
      s1.mixer_init = s3.mixer_init ∧ s1.mixer_2_6 = s3.mixer_2_6 ∧
      s1.current_music = s3.current_music ∧
      (∀ x, x ≠ self → s1.objs x = s3.objs x) ∧
      (s1.objs self).ended = 0 ∧
      lastStart s1.mixer.log = some (h, loops,
        if ((s3.objs self).paused ≠ 0 ∧ (s3.objs self).ended = 0) ∧ f32 startpos = 0
        then (s3.objs self).position else f32 startpos) := by
  by_cases hv : a.val = -1
  · refine ⟨_, .error .sdl_error, by simp [pgmusic_play, hinit, hm, hv, h3]; rfl,
      ?_, ?_, ?_, ?_, ?_, ?_, ?_, ?_, ?_⟩
    all_goals cases hs : a.spec <;>
      simp [hv, hs, Mix_QuerySpec, MusicState.setObj, lastStart,
        Mix_VolumeMusic, Mix_FadeInMusicPos, Mix_HookMusicFinished, Mixer.record]
    all_goals intro x hx; simp [Function.update, hx]
  · refine ⟨_, .ok (), by simp [pgmusic_play, hinit, hm, hv, h3]; rfl,
      ?_, ?_, ?_, ?_, ?_, ?_, ?_, ?_, ?_⟩
    all_goals cases hs : a.spec <;>
      simp [hv, hs, Mix_QuerySpec, MusicState.setObj, lastStart,
        Mix_VolumeMusic, Mix_FadeInMusicPos, Mix_HookMusicFinished, Mixer.record]
    all_goals intro x hx; simp [Function.update, hx]

/-- Claim C1, as amended.  Starting with no legacy music and no owner, on
SDL_mixer 2.6 or later, `pgmusic_play(A)` followed by `pgmusic_play(B)` with
`A ≠ B` (whatever the arguments and the engine answers, hooks run by the halt
included) leaves `A.paused = 1`, `A.ended = 0`, `A.position` equal to the engine
position read during the second call rounded to the C `float` of the field, and
`current_music_obj = B`. -/
theorem C1_track_switch_suspends_loser (s : MusicState) (A B : ObjId) (hA hB : Handle)
    (loopsA loopsB : Int) (startA fadeA startB fadeB : Rat) (a1 a2 : PlayAnswers)
    (hinit : s.mixer_init = true) (h26 : s.mixer_2_6 = true)
    (hlegacy : s.current_music = none) (howner : s.current_music_obj = none)
    (hAB : A ≠ B) (hmA : (s.objs A).music = some hA) (hmB : (s.objs B).music = some hB) :
    ∃ s1 r1 s2 r2,
      pgmusic_play s A loopsA startA fadeA a1 = some (s1, r1) ∧
      pgmusic_play s1 B loopsB startB fadeB a2 = some (s2, r2) ∧
      (s2.objs A).paused = 1 ∧ (s2.objs A).ended = 0 ∧
      (s2.objs A).position = f32 a2.enginePos ∧
      s2.current_music_obj = some B := by
  obtain ⟨s1, r1, h1, -, ho1, -, hi1, hv1, hc1, hobj1, -, -⟩ :=
    play_after_take_channel s _ A hA loopsA startA fadeA a1 hinit hmA
      (take_channel_idle s A a1 hlegacy howner)
  have ho1' : s1.current_music_obj = some A := ho1
  have hi1' : s1.mixer_init = true := hi1.trans hinit
  have hv1' : s1.mixer_2_6 = true := hv1.trans h26
  have hmB1 : (s1.objs B).music = some hB := by
    rw [hobj1 B (Ne.symm hAB)]
    exact hmB
  obtain ⟨s3, h3, ho3, -, -, -, -, hprev⟩ :=
    take_channel_some s1 B a2 (fun h => by rw [ho1'] at h; exact absurd h (by simp))
  obtain ⟨s2, r2, h2, -, ho2, -, -, -, -, hobj2, -, -⟩ :=
    play_after_take_channel s1 s3 B hB loopsB startB fadeB a2 hi1' hmB1 h3
  have hA2 : s2.objs A = { s1.objs A with ended := 0, paused := 1, position := f32 a2.enginePos } := by
    rw [hobj2 A hAB]
    exact hprev A ho1' hAB hv1'
  exact ⟨s1, r1, s2, r2, h1, h2, by rw [hA2], by rw [hA2], by rw [hA2], ho2.trans ho3⟩

/-- Witness of C1 as amended: objects `0` and `1` of the sample heap, the second
play asked while music plays and the engine reports position `7/2`. -/
theorem C1_track_switch_suspends_loser_witness :
    ∃ s1 r1 s2 r2,
      pgmusic_play sampleState 0 0 0 0 idleAnswers = some (s1, r1) ∧
      pgmusic_play s1 1 0 0 0 (playingAnswers (7 / 2)) = some (s2, r2) ∧
      (s2.objs 0).paused = 1 ∧ (s2.objs 0).ended = 0 ∧
      (s2.objs 0).position = f32 (playingAnswers (7 / 2)).enginePos ∧
      s2.current_music_obj = some 1 :=
  C1_track_switch_suspends_loser sampleState 0 1 100 101 0 0 0 0 0 0 idleAnswers
    (playingAnswers (7 / 2)) rfl rfl rfl rfl (by decide) rfl rfl

/-- Counterexample to C1 as stated: `Music 0` plays from an idle coordinator and
`Music 1` takes the channel while the engine reports position `1 + 2 ^ (-30)`
(a `double`); the position stored for `Music 0` is `1`. -/
theorem C1_counterexample :
    sampleState.current_music = none ∧ sampleState.current_music_obj = none ∧
    ∃ s1 r1 s2 r2,
      pgmusic_play sampleState 0 0 0 0 idleAnswers = some (s1, r1) ∧
      pgmusic_play s1 1 0 0 0 (playingAnswers (1073741825 / 1073741824)) = some (s2, r2) ∧
      (s2.objs 0).paused = 1 ∧ (s2.objs 0).ended = 0 ∧ s2.current_music_obj = some 1 ∧
      (s2.objs 0).position = 1 ∧ (1 : Rat) ≠ 1073741825 / 1073741824 :=
  ⟨rfl, rfl, playingState, .ok (), suspendedAt (1073741825 / 1073741824), .ok (),
    rfl, by with_unfolding_all rfl, by decide!, by decide!, by decide!, by decide!,
    by norm_num⟩

/-- Start of the engine by `pgmusic_play`: when a previous owner exists or no
legacy music is loaded the call returns, the track is the owner afterwards, and
the resource, loop count and offset given to `Mix_FadeInMusicPos` are as
computed from the fields the track had on entry and from whether the halt ended
the track; the byte count changes only by a promotion inside the halt. -/
theorem play_start_offset (s : MusicState) (self : ObjId) (h : Handle)
    (loops : Int) (startpos fade_in : Rat) (a : PlayAnswers)
    (hinit : s.mixer_init = true) (hm : (s.objs self).music = some h)
    (hsafe : s.current_music_obj = none → s.current_music = none) :
    ∃ s1 r, pgmusic_play s self loops startpos fade_in a = some (s1, r) ∧
      lastStart s1.mixer.log = some (h, loops,
        if (((s.objs self).paused ≠ 0 ∧ (s.objs self).ended = 0) ∧
            endedByHalt s self a = false) ∧ f32 startpos = 0
        then (s.objs self).position else f32 startpos) ∧
      (s1.objs self).ended = 0 ∧
      s1.music_pos = (if promotedByHalt s self a = true then 0 else s.music_pos) ∧
      (r = .ok () ↔ a.val ≠ -1) ∧ s1.current_music_obj = some self := by
  obtain ⟨s3, h3, ho3, hobj, -, -, hpos, -⟩ := take_channel_some s self a hsafe
  obtain ⟨s1, r, h1, hr, ho1, hp1, -, -, -, -, he1, hstart⟩ :=
    play_after_take_channel s s3 self h loops startpos fade_in a hinit hm h3
  refine ⟨s1, r, h1, ?_, he1, hp1.trans hpos, hr, ho1.trans ho3⟩
  rw [hstart, hobj]
  cases hE : endedByHalt s self a <;> simp

/-- Narrowing keeps zero. -/
theorem f32_zero : f32 0 = 0 := by decide!

/-- The setter on an object that does not own the channel: the clamped value is
stored as a C `float`, the engine is not called, the setter returns `0` with no
exception. -/
theorem set_position_not_owner (s : MusicState) (self : ObjId) (x : Rat) (seek : Int)
    (hinit : s.mixer_init = true) (hown : s.current_music_obj ≠ some self) :
    pgmusic_set_position s self x seek =
      (s.setObj self { s.objs self with position := f32 (max x 0) }, ⟨0, none⟩) := by
  have hown1 : ¬ some self = s.current_music_obj := fun h => hown h.symm
  have hmax : (if x < 0 then (0 : Rat) else x) = max x 0 := by
    split
    · rw [max_eq_right (le_of_lt ‹x < 0›)]
    · rw [max_eq_left (not_lt.mp ‹¬ x < 0›)]
  simp only [pgmusic_set_position, hinit, hown1, hmax]
  simp

/-- Claim C3, as amended.  With the mixer initialised, for a Music object that
does not own the channel: `pgmusic_set_position(track, x)` stores `max(x, 0)`
rounded to the C `float` of the field, without calling the engine, and returns
`0`.  If the object has a resource loaded and a previous owner exists or no
legacy music is loaded, the next `pgmusic_play(track)` with no start offset
starts the engine at that stored value when the track is suspended
(`paused != 0`, `ended == 0`), and at offset `0` when it is not. -/
theorem C3_deferred_seek (s : MusicState) (self : ObjId) (x : Rat) (seek : Int)
    (hinit : s.mixer_init = true) (hown : s.current_music_obj ≠ some self) :
    ∃ s1, pgmusic_set_position s self x seek = (s1, ⟨0, none⟩) ∧
      (s1.objs self).position = f32 (max x 0) ∧ s1.mixer = s.mixer ∧
      ∀ (h : Handle) (loops : Int) (fade_in : Rat) (a : PlayAnswers),
        (s.objs self).music = some h →
        (s.current_music_obj = none → s.current_music = none) →
        ∃ s2 r, pgmusic_play s1 self loops 0 fade_in a = some (s2, r) ∧
          lastStart s2.mixer.log = some (h, loops,
            if (s.objs self).paused ≠ 0 ∧ (s.objs self).ended = 0
            then f32 (max x 0) else 0) := by
  refine ⟨_, set_position_not_owner s self x seek hinit hown, ?_, rfl, ?_⟩
  · simp [MusicState.setObj]
  · intro h loops fade_in a hm hsafe
    have hm1 : ((s.setObj self { s.objs self with position := f32 (max x 0) }).objs self).music
        = some h := by simp [MusicState.setObj, hm]
    obtain ⟨s2, r, h2, hstart, -⟩ :=
      play_start_offset (s.setObj self { s.objs self with position := f32 (max x 0) })
        self h loops 0 fade_in a hinit hm1 hsafe
    refine ⟨s2, r, h2, ?_⟩
    have hE : endedByHalt (s.setObj self { s.objs self with position := f32 (max x 0) })
        self a = false := by
      simp [endedByHalt, MusicState.setObj, hown]
    rw [hstart, hE]
    by_cases hp : (s.objs self).paused ≠ 0 ∧ (s.objs self).ended = 0
    · simp [MusicState.setObj, hp, f32_zero]
    · simp only [MusicState.setObj, Function.update_same, hp, f32_zero, false_and, if_false]

/-- Witness of C3 as amended: `Music 0`, suspended at `7/2` and not the owner, is
given position `5` and played again while `Music 1` plays. -/
theorem C3_deferred_seek_witness :
    ∃ s1, pgmusic_set_position suspendedState 0 5 0 = (s1, ⟨0, none⟩) ∧
      (s1.objs 0).position = f32 (max 5 0) ∧ s1.mixer = suspendedState.mixer ∧
      ∃ s2 r, pgmusic_play s1 0 0 0 0 (playingAnswers 1) = some (s2, r) ∧
        lastStart s2.mixer.log = some (100, 0,
          if (suspendedState.objs 0).paused ≠ 0 ∧ (suspendedState.objs 0).ended = 0
          then f32 (max 5 0) else 0) := by
  obtain ⟨s1, h1, h2, h3, h4⟩ := C3_deferred_seek suspendedState 0 5 0 rfl (by decide)
  exact ⟨s1, h1, h2, h3, h4 100 0 0 (playingAnswers 1) rfl (by decide)⟩

/-- Counterexample to C3 as stated: a freshly loaded `Music 0` that does not own
the channel is given position `5`; the next play with no start offset starts
the engine at offset `0`, not `5`.  And the position `1 + 2 ^ (-30)` is stored
as `1`, the nearest `float`. -/
theorem C3_counterexample :
    sampleState.current_music_obj ≠ some 0 ∧
    ((pgmusic_set_position sampleState 0 5 0).1.objs 0).position = 5 ∧
    (pgmusic_play (pgmusic_set_position sampleState 0 5 0).1 0 0 0 0 idleAnswers).map
        (fun p => lastStart p.1.mixer.log) = some (some (100, 0, 0)) ∧
    (0 : Rat) ≠ max 5 0 ∧
    ((pgmusic_set_position sampleState 0 (1073741825 / 1073741824) 0).1.objs 0).position = 1 ∧
    (1 : Rat) ≠ max (1073741825 / 1073741824) 0 := by
  refine ⟨by decide, by decide!, by decide!, by norm_num, by decide!, by norm_num⟩

/-- Claim C4, the code at the failing input.  `Music 0` owns the channel and the
engine refuses the seek (`Mix_SetMusicPosition` returns `-1`): the position is
left as it was, and the setter returns `0` with no exception set. -/
theorem C4_failed_seek_reports_success :
    playingState.current_music_obj = some 0 ∧
    ((pgmusic_set_position playingState 0 5 (-1)).1.objs 0).position
      = (playingState.objs 0).position ∧
    (pgmusic_set_position playingState 0 5 (-1)).2 = ⟨0, none⟩ ∧
    ((pgmusic_set_position playingState 0 5 0).1.objs 0).position = 5 ∧
    (pgmusic_set_position playingState 0 5 0).2 = ⟨0, none⟩ := by
  refine ⟨rfl, rfl, rfl, by decide!, rfl⟩

/-- Claim C5, the code at the failing input.  With resource `2` queued for
`loops = 3`, a `music_queue` call with `loops = 7` whose source fails to decode
returns an error and keeps the queued resource, but leaves
`queue_music_loops = 7`.  A call that decodes resource `9` releases resource `2`
and leaves the slot `(9, 7)`. -/
theorem C5_failed_queue_overwrites_loops :
    queuedState.queue_music = some 2 ∧ queuedState.queue_music_loops = 3 ∧
    (music_queue queuedState ⟨true, none⟩ 7).2 = .error .sdl_error ∧
    (music_queue queuedState ⟨true, none⟩ 7).1.queue_music = some 2 ∧
    (music_queue queuedState ⟨true, none⟩ 7).1.queue_music_loops = 7 ∧
    (music_queue queuedState ⟨true, some 9⟩ 7).2 = .ok () ∧
    (music_queue queuedState ⟨true, some 9⟩ 7).1.queue_music = some 9 ∧
    (music_queue queuedState ⟨true, some 9⟩ 7).1.queue_music_loops = 7 ∧
    (music_queue queuedState ⟨true, some 9⟩ 7).1.mixer.log.head? = some (.freeMusic 2) := by
  refine ⟨rfl, rfl, rfl, rfl, rfl, rfl, rfl, rfl, rfl⟩

/-- Claim C6.  When the queue slot holds `(B, n)`, `endmusic_callback` releases
the old current resource (if there is one), makes `B` the current resource,
empties the slot, sets `queue_music_loops` and `music_pos` to `0`, and starts
the engine on `B` with loop count `n` as its last command. -/
theorem C6_queue_promotion (s : MusicState) (B : Handle) (n : Int) (val : Int)
    (hq : s.queue_music = some B) (hn : s.queue_music_loops = n) :
    (∀ c, s.current_music = some c → Call.freeMusic c ∈ (endmusic_callback s val).mixer.log) ∧
    (endmusic_callback s val).current_music = some B ∧
    (endmusic_callback s val).queue_music = none ∧
    (endmusic_callback s val).queue_music_loops = 0 ∧
    (endmusic_callback s val).music_pos = 0 ∧
    (endmusic_callback s val).mixer.log.head? = some (Call.playMusic B n) ∧
    lastStart (endmusic_callback s val).mixer.log = some (B, n, 0) := by
  subst hn
  by_cases he : s.endmusic_event ≠ 0 ∧ s.video_init = true <;>
    cases hc : s.current_music <;>
    simp [endmusic_callback, he, hq, hc, Mix_PlayMusic, Mix_HookMusicFinished, Mix_FreeMusic,
      Mixer.record, lastStart]

/-- Witness of C6: legacy resource `1` is current and `(2, loops = 2)` is
queued. -/
theorem C6_queue_promotion_witness :
    (∀ c, legacyQueuedState.current_music = some c →
      Call.freeMusic c ∈ (endmusic_callback legacyQueuedState 0).mixer.log) ∧
    (endmusic_callback legacyQueuedState 0).current_music = some 2 ∧
    (endmusic_callback legacyQueuedState 0).queue_music = none ∧
    (endmusic_callback legacyQueuedState 0).queue_music_loops = 0 ∧
    (endmusic_callback legacyQueuedState 0).music_pos = 0 ∧
    (endmusic_callback legacyQueuedState 0).mixer.log.head? = some (Call.playMusic 2 2) ∧
    lastStart (endmusic_callback legacyQueuedState 0).mixer.log = some (2, 2, 0) :=
  C6_queue_promotion legacyQueuedState 2 2 0 rfl rfl

/-! ## Byte accounting and `music_get_pos` -/

/-- The cast to `long` and back to `Uint64` keeps the value. -/
theorem u64_i64 (x : Int) : u64 (i64 x) = u64 x := by
  unfold u64 i64
  congr 1
  omega

/-- A natural below `2 ^ 64` is its own `Uint64` reduction. -/
theorem u64_of_lt (x : Nat) (h : x < 2 ^ 64) : u64 (x : Int) = x := by
  unfold u64
  omega

/-- An `int` lies between `-2 ^ 31` and `2 ^ 31`. -/
theorem i32_range (x : Int) : -2 ^ 31 ≤ i32 x ∧ i32 x < 2 ^ 31 := by
  unfold i32
  omega

/-- An integer in the range of `int` is its own reduction. -/
theorem i32_of_range (x : Int) (h0 : -2 ^ 31 ≤ x) (h1 : x < 2 ^ 31) : i32 x = x := by
  unfold i32
  omega

/-- When neither multiplication leaves the range of `int`, the denominator is
the exact product. -/
theorem formatDenominator_exact (s : MusicState)
    (h0 : -2 ^ 31 ≤ s.music_channels * s.music_frequency)
    (h1 : s.music_channels * s.music_frequency < 2 ^ 31)
    (h2 : -2 ^ 31 ≤ s.music_channels * s.music_frequency *
      (((s.music_format &&& 0xff) >>> 3 : Nat) : Int))
    (h3 : s.music_channels * s.music_frequency *
      (((s.music_format &&& 0xff) >>> 3 : Nat) : Int) < 2 ^ 31) :
    formatDenominator s = s.music_channels * s.music_frequency *
      (((s.music_format &&& 0xff) >>> 3 : Nat) : Int) := by
  unfold formatDenominator
  rw [i32_of_range _ h0 h1, i32_of_range _ h2 h3]

/-- Value of `music_get_pos` when the format is non-degenerate, the tick
timestamp is not after the clock, and no 64-bit value wraps. -/
theorem get_pos_formula (s : MusicState) (now : Nat)
    (hinit : s.mixer_init = true)
    (hd0 : 0 < formatDenominator s)
    (hpos : 1000 * s.music_pos < 2 ^ 64)
    (ht : s.music_pos_time ≤ now) (hnow : now < 2 ^ 64)
    (hsum : s.mixer.paused = false → byteMs s + ((now : Int) - s.music_pos_time) < 2 ^ 64) :
    music_get_pos s now =
      .ok (if s.mixer.paused = false then byteMs s + ((now : Int) - s.music_pos_time)
           else byteMs s) := by
  have hd : formatDenominator s < 2 ^ 64 := by
    have := (i32_range (i32 (s.music_channels * s.music_frequency) *
      (((s.music_format &&& 0xff) >>> 3 : Nat) : Int))).2
    unfold formatDenominator
    omega
  have hden : i32 (i32 (s.music_channels * s.music_frequency) *
      (((s.music_format &&& 0xff) >>> 3 : Nat) : Int)) = formatDenominator s := rfl
  obtain ⟨d, hdd⟩ : ∃ d : Nat, formatDenominator s = d := ⟨_, (Int.toNat_of_nonneg hd0.le).symm⟩
  have hdpos : 0 < d := by omega
  have hud : u64 (formatDenominator s) = d := by rw [hdd]; exact u64_of_lt d (by omega)
  have hup : u64 (1000 * (s.music_pos : Int)) = 1000 * s.music_pos := by
    have := u64_of_lt (1000 * s.music_pos) hpos
    simpa using this
  have hq : 1000 * s.music_pos / d < 2 ^ 64 :=
    lt_of_le_of_lt (Nat.div_le_self _ _) hpos
  have hb : byteMs s = ((1000 * s.music_pos / d : Nat) : Int) := by
    unfold byteMs
    rw [hdd]
    push_cast
    rfl
  have hticks : u64 (i64 ((u64 (1000 * (s.music_pos : Int)) / u64 (formatDenominator s) : Nat) : Int))
      = 1000 * s.music_pos / d := by
    rw [u64_i64, hup, hud, u64_of_lt _ hq]
  have hnz : ¬ (s.music_pos_time < 0 ∨ formatDenominator s = 0) := by
    intro h
    rcases h with h | h
    · exact Nat.not_lt_zero _ h
    · omega
  unfold music_get_pos
  simp only [hinit, hden, hticks, hnz]
  have hun : u64 (now : Int) = now := u64_of_lt now hnow
  by_cases hp : s.mixer.paused = false
  · have hs := hsum hp
    rw [hb] at hs
    have hdiff : u64 ((now : Int) - s.music_pos_time) = now - s.music_pos_time := by
      unfold u64
      omega
    have htot : u64 (((1000 * s.music_pos / d : Nat) : Int) + ((now - s.music_pos_time : Nat) : Int))
        = 1000 * s.music_pos / d + (now - s.music_pos_time) := by
      unfold u64
      omega
    simp only [hp, hun, hdiff, htot, hb]
    simp
    omega
  · simp [hp, hb]

/-- For a positive denominator the byte-derived milliseconds are the floor of
the exact quotient. -/
theorem byteMs_eq_floor (s : MusicState) (hd0 : 0 < formatDenominator s) :
    byteMs s = ⌊((1000 * s.music_pos : Int) : ℚ) / (formatDenominator s : ℚ)⌋ := by
  obtain ⟨d, hdd⟩ : ∃ d : Nat, formatDenominator s = d := ⟨_, (Int.toNat_of_nonneg hd0.le).symm⟩
  unfold byteMs
  rw [hdd]
  exact (Rat.floor_intCast_div_natCast _ d).symm

/-- Claim C9, as amended.  With the mixer initialised and a tick timestamp
`t <= now`, let `d` be the value the code computes for
`music_channels * music_frequency * ((music_format & 0xff) >> 3)`, a product of
`int`s.  `music_get_pos` returns `-1` when `d == 0`; when `d > 0` and no 64-bit
value wraps it returns `floor(1000 * music_pos / d)` if the channel is paused
and `floor(1000 * music_pos / d) + (now - t)` if it is not.  Whenever neither
multiplication leaves the range of `int`, `d` is the exact product. -/
theorem C9_elapsed_time_formula (s : MusicState) (now : Nat)
    (hinit : s.mixer_init = true)
    (ht : s.music_pos_time ≤ now) (hnow : now < 2 ^ 64)
    (hd0 : 0 ≤ formatDenominator s)
    (hpos : 1000 * s.music_pos < 2 ^ 64)
    (hsum : s.mixer.paused = false →
      ⌊((1000 * s.music_pos : Int) : ℚ) / (formatDenominator s : ℚ)⌋
        + ((now : Int) - s.music_pos_time) < 2 ^ 64) :
    music_get_pos s now = .ok
      (if formatDenominator s = 0 then -1
       else if s.mixer.paused = true then
         ⌊((1000 * s.music_pos : Int) : ℚ) / (formatDenominator s : ℚ)⌋
       else
         ⌊((1000 * s.music_pos : Int) : ℚ) / (formatDenominator s : ℚ)⌋
           + ((now : Int) - s.music_pos_time)) ∧
    ((-2 ^ 31 ≤ s.music_channels * s.music_frequency ∧
      s.music_channels * s.music_frequency < 2 ^ 31 ∧
      -2 ^ 31 ≤ s.music_channels * s.music_frequency *
        (((s.music_format &&& 0xff) >>> 3 : Nat) : Int) ∧
      s.music_channels * s.music_frequency *
        (((s.music_format &&& 0xff) >>> 3 : Nat) : Int) < 2 ^ 31) →
      formatDenominator s = s.music_channels * s.music_frequency *
        (((s.music_format &&& 0xff) >>> 3 : Nat) : Int)) := by
  refine ⟨?_, fun h => formatDenominator_exact s h.1 h.2.1 h.2.2.1 h.2.2.2⟩
  by_cases hz : formatDenominator s = 0
  · have hden : i32 (i32 (s.music_channels * s.music_frequency) *
        (((s.music_format &&& 0xff) >>> 3 : Nat) : Int)) = formatDenominator s := rfl
    unfold music_get_pos
    simp only [hinit, hden, hz]
    simp
  · have hdpos : 0 < formatDenominator s := lt_of_le_of_ne hd0 (Ne.symm hz)
    rw [← byteMs_eq_floor s hdpos] at hsum ⊢
    rw [get_pos_formula s now hinit hdpos hpos ht hnow hsum]
    cases hp : s.mixer.paused <;> simp [hz]

/-- Witness of C9 as amended: the legacy track of `legacyTickedState` (4096
bytes counted at clock `50`), queried unpaused at clock `60`; the result is
`23 + 10` and the denominator is the exact product `176400`. -/
theorem C9_elapsed_time_formula_witness :
    music_get_pos legacyTickedState 60 = .ok
      (if formatDenominator legacyTickedState = 0 then -1
       else if legacyTickedState.mixer.paused = true then
         ⌊((1000 * legacyTickedState.music_pos : Int) : ℚ)
            / (formatDenominator legacyTickedState : ℚ)⌋
       else
         ⌊((1000 * legacyTickedState.music_pos : Int) : ℚ)
            / (formatDenominator legacyTickedState : ℚ)⌋
           + (((60 : Nat) : Int) - legacyTickedState.music_pos_time)) ∧
    ((-2 ^ 31 ≤ legacyTickedState.music_channels * legacyTickedState.music_frequency ∧
      legacyTickedState.music_channels * legacyTickedState.music_frequency < 2 ^ 31 ∧
      -2 ^ 31 ≤ legacyTickedState.music_channels * legacyTickedState.music_frequency *
        (((legacyTickedState.music_format &&& 0xff) >>> 3 : Nat) : Int) ∧
      legacyTickedState.music_channels * legacyTickedState.music_frequency *
        (((legacyTickedState.music_format &&& 0xff) >>> 3 : Nat) : Int) < 2 ^ 31) →
      formatDenominator legacyTickedState =
        legacyTickedState.music_channels * legacyTickedState.music_frequency *
          (((legacyTickedState.music_format &&& 0xff) >>> 3 : Nat) : Int)) :=
  C9_elapsed_time_formula legacyTickedState 60 rfl
    (by decide) (by decide) (by decide) (by decide)
    (by
      intro _
      rw [← byteMs_eq_floor _ (by decide)]
      decide)

/-- Counterexample to C9 as stated: in `wideFormatState` (`2 ^ 30` Hz, 2
channels, 16 bit) the product `d` is `2 ^ 32 > 0`, the tick timestamp is `0` and
nothing wraps in 64 bits, so the claim gives
`floor(1000 * 42949673 / 2 ^ 32) + (0 - 0) = 10`; the `int` product of the code
is `0` and `music_get_pos` returns `-1`. -/
theorem C9_counterexample :
    wideFormatState.mixer_init = true ∧ wideFormatState.mixer.paused = false ∧
    wideFormatState.music_pos_time = 0 ∧ wideFormatState.music_pos = 42949673 ∧
    wideFormatState.music_channels * wideFormatState.music_frequency *
      (((wideFormatState.music_format &&& 0xff) >>> 3 : Nat) : Int) = 2 ^ 32 ∧
    ⌊((1000 * wideFormatState.music_pos : Int) : ℚ) / (2 ^ 32 : ℚ)⌋
      + (((0 : Nat) : Int) - wideFormatState.music_pos_time) = 10 ∧
    formatDenominator wideFormatState = 0 ∧
    music_get_pos wideFormatState 0 = .ok (-1) := by
  refine ⟨rfl, rfl, by decide, by decide, by decide, by decide!, by decide, rfl⟩

/-- Claim C8, the code at the failing input.  After a legacy play has ended
with nothing queued, `music_pos_time` holds the never-ticked value stored by
`endmusic_callback`, the format is still the one queried at play time, and
`music_get_pos` at clock `1000` returns `1001` instead of `-1`; the same happens
for the initial value of `music_pos_time` once `pgmusic_play` has queried the
format. -/
theorem C8_sentinel_not_detected :
    legacyEndedState.music_pos_time = NEVER_TICKED ∧
    music_get_pos legacyEndedState 1000 = .ok 1001 ∧
    playingState.music_pos_time = NEVER_TICKED ∧
    music_get_pos playingState 1000 = .ok 1001 := by
  refine ⟨by decide, rfl, by decide, rfl⟩

/-- One render tick on an unpaused channel, when nothing wraps: `len` is added
to `music_pos`, the tick timestamp becomes the clock, the rest is kept. -/
theorem tick_step_regular (s : MusicState) (len : Int) (now : Nat)
    (hunp : s.mixer.paused = false) (hlen : 0 ≤ len) (hnow : now < 2 ^ 64)
    (hpos : 1000 * ((s.music_pos : Int) + len) < 2 ^ 64) :
    (mixmusic_callback s len now).mixer_init = s.mixer_init ∧
    (mixmusic_callback s len now).mixer.paused = false ∧
    formatDenominator (mixmusic_callback s len now) = formatDenominator s ∧
    (mixmusic_callback s len now).music_pos_time = now ∧
    ((mixmusic_callback s len now).music_pos : Int) = s.music_pos + len := by
  have h1 : u64 ((s.music_pos : Int) + len) = ((s.music_pos : Int) + len).toNat := by
    unfold u64
    congr 1
    omega
  have h2 : u64 (now : Int) = now := u64_of_lt now hnow
  simp only [mixmusic_callback, hunp, if_true, h1, h2, formatDenominator]
  refine ⟨trivial, trivial, trivial, trivial, ?_⟩
  omega

/-- Along a run in which no 64-bit value wraps, the byte-derived milliseconds
never decrease, the tick timestamp stays behind the clock, and the conditions
under which `music_get_pos` computes its formula are kept; a run without a
render tick leaves the state alone. -/
theorem run_byteMs_mono (evs : List RenderEvent) :
    ∀ sn : MusicState × Nat,
      sn.1.mixer.paused = false → 0 < formatDenominator sn.1 →
      sn.1.music_pos_time ≤ sn.2 →
      1000 * sn.1.music_pos < 2 ^ 64 → ticksInRange sn evs = true →
      (renderRun sn evs).1.mixer_init = sn.1.mixer_init ∧
      (renderRun sn evs).1.mixer.paused = false ∧
      formatDenominator (renderRun sn evs).1 = formatDenominator sn.1 ∧
      (renderRun sn evs).1.music_pos_time ≤ (renderRun sn evs).2 ∧
      1000 * (renderRun sn evs).1.music_pos < 2 ^ 64 ∧
      sn.2 ≤ (renderRun sn evs).2 ∧
      byteMs sn.1 ≤ byteMs (renderRun sn evs).1 ∧
      (clockOnly evs = true → (renderRun sn evs).1 = sn.1) := by
  induction evs with
  | nil =>
    intro sn hunp _ ht hpos _
    exact ⟨rfl, hunp, rfl, ht, hpos, le_refl _, le_refl _, fun _ => rfl⟩
  | cons e rest ih =>
    intro sn hunp hd0 ht hpos hcov
    cases e with
    | tick len =>
      simp only [ticksInRange, Bool.and_eq_true, decide_eq_true_eq] at hcov
      obtain ⟨⟨⟨hlen, hnow⟩, hp1⟩, hrest⟩ := hcov
      obtain ⟨hi, hu, hden, htime, hmp⟩ := tick_step_regular sn.1 len sn.2 hunp hlen hnow hp1
      have hpos1 : 1000 * (mixmusic_callback sn.1 len sn.2).music_pos < 2 ^ 64 := by
        have : (1000 * (mixmusic_callback sn.1 len sn.2).music_pos : Int) < 2 ^ 64 := by
          rw [hmp]; exact hp1
        exact_mod_cast this
      obtain ⟨a1, a2, a3, a4, a5, a6, a7, -⟩ :=
        ih (renderStep sn (.tick len)) hu (hden ▸ hd0) (le_of_eq htime) hpos1 hrest
      refine ⟨a1.trans hi, a2, a3.trans hden, a4, a5, a6, ?_, fun h => by simp [clockOnly] at h⟩
      refine le_trans ?_ a7
      show byteMs sn.1 ≤ byteMs (mixmusic_callback sn.1 len sn.2)
      unfold byteMs
      rw [hden, hmp]
      exact Int.ediv_le_ediv hd0 (by omega)
    | advance dt =>
      simp only [ticksInRange] at hcov
      obtain ⟨a1, a2, a3, a4, a5, a6, a7, a8⟩ :=
        ih (renderStep sn (.advance dt)) hunp hd0 (le_trans ht (Nat.le_add_right _ _)) hpos hcov
      exact ⟨a1, a2, a3, a4, a5, le_trans (Nat.le_add_right _ dt) a6, a7,
        fun h => a8 (by simpa [clockOnly] using h)⟩

/-- Claim C7, as amended.  In an unpaused state with non-degenerate format and a
tick timestamp `t <= now`, absent 64-bit overflow, for every interleaving of
render ticks (`len >= 0`) and clock advances: the result of `music_get_pos`
after the run is at least the result before it minus `now - t`, the clock time
between the last tick and the first sample.  The second result is at least the
first when no render tick occurs in between (it exceeds it by the clock advance)
and when the first sample is taken at the tick timestamp. -/
theorem C7_position_drop_bounded (s : MusicState) (now : Nat)
    (evs : List RenderEvent)
    (hinit : s.mixer_init = true) (hunp : s.mixer.paused = false)
    (hd0 : 0 < formatDenominator s)
    (ht : s.music_pos_time ≤ now) (hpos : 1000 * s.music_pos < 2 ^ 64)
    (hrange : ticksInRange (s, now) evs = true)
    (hclock : (renderRun (s, now) evs).2 < 2 ^ 64)
    (hfirst : byteMs s + ((now : Int) - s.music_pos_time) < 2 ^ 64)
    (hfin : byteMs (renderRun (s, now) evs).1
      + (((renderRun (s, now) evs).2 : Int) - (renderRun (s, now) evs).1.music_pos_time)
        < 2 ^ 64) :
    ∃ first second : Int,
      music_get_pos s now = .ok first ∧
      music_get_pos (renderRun (s, now) evs).1 (renderRun (s, now) evs).2 = .ok second ∧
      first - ((now : Int) - s.music_pos_time) ≤ second ∧
      (clockOnly evs = true →
        second = first + (((renderRun (s, now) evs).2 : Int) - now) ∧ first ≤ second) ∧
      (s.music_pos_time = now → first ≤ second) := by
  obtain ⟨a1, a2, a3, a4, a5, a6, a7, a8⟩ :=
    run_byteMs_mono evs (s, now) hunp hd0 ht hpos hrange
  have h1 := get_pos_formula s now hinit hd0 hpos ht (lt_of_le_of_lt a6 hclock)
    (fun _ => hfirst)
  have h2 := get_pos_formula (renderRun (s, now) evs).1 (renderRun (s, now) evs).2
    (a1.trans hinit) (a3 ▸ hd0) a5 a4 hclock (fun _ => hfin)
  rw [if_pos hunp] at h1
  rw [if_pos a2] at h2
  have a4' : ((renderRun (s, now) evs).1.music_pos_time : Int) ≤ (renderRun (s, now) evs).2 := by
    exact_mod_cast a4
  have a6' : (now : Int) ≤ (renderRun (s, now) evs).2 := by exact_mod_cast a6
  have ht' : (s.music_pos_time : Int) ≤ now := by exact_mod_cast ht
  have a7' : byteMs s ≤ byteMs (renderRun (s, now) evs).1 := a7
  refine ⟨_, _, h1, h2, ?_, ?_, ?_⟩
  · omega
  · intro hc
    have hs : (renderRun (s, now) evs).1 = s := a8 hc
    rw [hs]
    constructor <;> omega
  · intro hnow
    rw [hnow]
    omega

/-- Witness of C7 as amended: from `legacyPlayingState` at clock `50`, 4096 bytes
(23 ms) are rendered and the clock advances by `1`: the result drops from `50`
to `24`, within the bound `50 - 50`. -/
theorem C7_position_drop_bounded_witness :
    ∃ first second : Int,
      music_get_pos legacyPlayingState 50 = .ok first ∧
      music_get_pos
        (renderRun (legacyPlayingState, 50) [.tick 4096, .advance 1]).1
        (renderRun (legacyPlayingState, 50) [.tick 4096, .advance 1]).2 = .ok second ∧
      first - (((50 : Nat) : Int) - legacyPlayingState.music_pos_time) ≤ second ∧
      (clockOnly [.tick 4096, .advance 1] = true →
        second = first +
          (((renderRun (legacyPlayingState, 50) [.tick 4096, .advance 1]).2 : Int)
            - (50 : Nat)) ∧ first ≤ second) ∧
      (legacyPlayingState.music_pos_time = 50 → first ≤ second) :=
  C7_position_drop_bounded legacyPlayingState 50 [.tick 4096, .advance 1]
    rfl rfl (by decide) (by decide) (by decide) (by decide) (by decide) (by decide)
    (by decide)

/-- Counterexample to C7 as stated: `legacyPlayingState` is unpaused with
denominator `176400`; sampled at clock `50` the position is `50`; after 4096
bytes are rendered and the clock has advanced by `1`, it is `24`. -/
theorem C7_counterexample :
    legacyPlayingState.mixer.paused = false ∧
    0 < formatDenominator legacyPlayingState ∧
    music_get_pos legacyPlayingState 50 = .ok 50 ∧
    music_get_pos
      (renderRun (legacyPlayingState, 50) [.tick 4096, .advance 1]).1
      (renderRun (legacyPlayingState, 50) [.tick 4096, .advance 1]).2 = .ok 24 ∧
    ¬ ((50 : Int) ≤ 24) := by
  refine ⟨rfl, by decide, rfl, rfl, by decide⟩

/-- Claim C10, as amended.  A legacy `music_play` that passes its checks (mixer
initialised, music loaded) leaves `music_pos = 0`, whether the engine start
succeeds or not.  `pgmusic_play` on a loaded Music object (mixer initialised, a
previous owner present or no legacy music loaded) does not reset it:
`music_pos` keeps its value, except when the halt of the previous owner runs
`endmusic_callback` with a queue entry pending, whose promotion leaves it `0`. -/
theorem C10_byte_accounting_on_play (s t : MusicState) (c : Handle) (self : ObjId)
    (h : Handle) (loops fade_ms : Int) (startpos fade_in : Rat)
    (spec : Option (Int × Nat × Int)) (now : Nat) (val : Int) (a : PlayAnswers)
    (hs : s.mixer_init = true) (hc : s.current_music = some c)
    (ht : t.mixer_init = true) (hm : (t.objs self).music = some h)
    (hsafe : t.current_music_obj = none → t.current_music = none) :
    (music_play s loops startpos fade_ms spec now val).1.music_pos = 0 ∧
    ((music_play s loops startpos fade_ms spec now val).2 = .ok () ↔ val ≠ -1) ∧
    ∃ s1 r, pgmusic_play t self loops startpos fade_in a = some (s1, r) ∧
      s1.music_pos = (if promotedByHalt t self a = true then 0 else t.music_pos) ∧
      (r = .ok () ↔ a.val ≠ -1) := by
  refine ⟨?_, ?_, ?_⟩
  · by_cases hv : val = -1 <;> cases spec <;>
      simp [music_play, hs, hc, hv, Mix_QuerySpec]
  · by_cases hv : val = -1 <;> cases spec <;>
      simp [music_play, hs, hc, hv, Mix_QuerySpec]
  · obtain ⟨s1, r, h1, -, -, h4, h5, -⟩ :=
      play_start_offset t self h loops startpos fade_in a ht hm hsafe
    exact ⟨s1, r, h1, h4, h5⟩

/-- Witness of C10 as amended: legacy music loaded and nothing else
(`legacyLoadedState`) for `music_play`; the freshly loaded module
(`sampleState`) for `pgmusic_play`. -/
theorem C10_byte_accounting_on_play_witness :
    (music_play legacyLoadedState 0 0 0 none 60 0).1.music_pos = 0 ∧
    ((music_play legacyLoadedState 0 0 0 none 60 0).2 = .ok () ↔ (0 : Int) ≠ -1) ∧
    ∃ s1 r, pgmusic_play sampleState 1 0 0 0 idleAnswers = some (s1, r) ∧
      s1.music_pos = (if promotedByHalt sampleState 1 idleAnswers = true then 0
        else sampleState.music_pos) ∧
      (r = .ok () ↔ idleAnswers.val ≠ -1) :=
  C10_byte_accounting_on_play legacyLoadedState sampleState 1 1 101 0 0 0 0 none 60 0
    idleAnswers rfl rfl rfl rfl (by decide)

/-- Counterexample to C10 as stated: in `mixedState` the byte count is 4096;
`pgmusic_play` on `Music 1`, called while the legacy music plays, succeeds and
the byte count is still 4096. -/
theorem C10_counterexample :
    mixedState.music_pos = 4096 ∧
    (pgmusic_play mixedState 1 0 0 0 (playingAnswers 1)).map (fun p => (p.2, p.1.music_pos))
      = some (.ok (), 4096) := by
  refine ⟨by decide, by with_unfolding_all rfl⟩


/-! ## Single-precision rounding -/

/-- The rational `pow2 k` is the power `2 ^ k`. -/
theorem pow2_eq (k : Int) : pow2 k = (2 : ℚ) ^ k := by
  unfold pow2
  split
  · rename_i h
    have : k = (k.toNat : Int) := (Int.toNat_of_nonneg h).symm
    conv_rhs => rw [this]
    rw [zpow_natCast]
    push_cast
    rfl
  · rename_i h
    have hk : 0 ≤ -k := by omega
    have : k = -((-k).toNat : Int) := by rw [Int.toNat_of_nonneg hk]; ring
    conv_rhs => rw [this]
    rw [zpow_neg, zpow_natCast]
    push_cast
    rw [one_div]

/-- Powers of two are positive. -/
theorem pow2_pos (k : Int) : 0 < pow2 k := by
  rw [pow2_eq]
  positivity

/-- Powers of two are ordered as their exponents. -/
theorem pow2_le_pow2 {a b : Int} : pow2 a ≤ pow2 b ↔ a ≤ b := by
  rw [pow2_eq, pow2_eq]
  exact zpow_le_zpow_iff_right₀ (by norm_num)

/-- Powers of two are strictly ordered as their exponents. -/
theorem pow2_lt_pow2 {a b : Int} : pow2 a < pow2 b ↔ a < b := by
  rw [pow2_eq, pow2_eq]
  exact zpow_lt_zpow_iff_right₀ (by norm_num)

/-- The power of a sum of exponents. -/
theorem pow2_add (a b : Int) : pow2 (a + b) = pow2 a * pow2 b := by
  rw [pow2_eq, pow2_eq, pow2_eq, zpow_add₀ (by norm_num)]

/-- With enough fuel, halving counts the binary logarithm. -/
theorem log2Fuel_eq (fuel : Nat) : ∀ n, n ≤ fuel → log2Fuel fuel n = Nat.log 2 n := by
  induction fuel with
  | zero =>
    intro n hn
    have : n = 0 := by omega
    subst this
    simp [log2Fuel]
  | succ f ih =>
    intro n hn
    unfold log2Fuel
    by_cases h2 : n < 2
    · rw [if_pos h2, Nat.log_of_lt h2]
    · rw [if_neg h2, ih (n / 2) (by omega)]
      exact (Nat.log_of_one_lt_of_le (by norm_num) (by omega : 2 ≤ n)).symm

/-- The leading-bit position is the binary logarithm. -/
theorem ilog2_eq (n : Nat) : ilog2 n = Nat.log 2 n := log2Fuel_eq n n le_rfl

/-- A positive rational lies above half the power of two that the bit lengths
of its numerator and denominator give. -/
theorem pow2_lt_abs (r : Rat) (hr : r ≠ 0) :
    pow2 ((ilog2 r.num.natAbs : Int) - (ilog2 r.den : Int) - 1) < |r| := by
  have hn : r.num.natAbs ≠ 0 := by
    rw [Ne, Int.natAbs_eq_zero, Rat.num_eq_zero]
    exact hr
  have hd : r.den ≠ 0 := r.den_nz
  have h1 : 2 ^ Nat.log 2 r.num.natAbs ≤ r.num.natAbs := Nat.pow_log_le_self 2 hn
  have h2 : r.den < 2 ^ (Nat.log 2 r.den + 1) := Nat.lt_pow_succ_log_self (by norm_num) _
  have hdpos : (0 : ℚ) < r.den := by exact_mod_cast Nat.pos_of_ne_zero hd
  have hmul : |r| * (r.den : ℚ) = (r.num.natAbs : ℚ) := by
    have h3 : r * (r.den : ℚ) = (r.num : ℚ) := Rat.mul_den_eq_num r
    have h4 : |r| * (r.den : ℚ) = |(r.num : ℚ)| := by
      rw [← h3, abs_mul, abs_of_pos hdpos]
    rw [h4, ← Int.cast_abs, Int.abs_eq_natAbs]
    exact Int.cast_natCast _
  rw [ilog2_eq, ilog2_eq, pow2_eq, ← mul_lt_mul_right hdpos, hmul]
  have e1 : ((2 : ℚ) ^ ((Nat.log 2 r.num.natAbs : Int) - (Nat.log 2 r.den : Int) - 1))
      * (2 : ℚ) ^ ((Nat.log 2 r.den : Int) + 1) = (2 : ℚ) ^ (Nat.log 2 r.num.natAbs : Int) := by
    rw [← zpow_add₀ (by norm_num)]
    congr 1
    ring
  have h2q : (r.den : ℚ) < (2 : ℚ) ^ ((Nat.log 2 r.den : Int) + 1) := by
    have : (r.den : ℚ) < ((2 ^ (Nat.log 2 r.den + 1) : Nat) : ℚ) := by exact_mod_cast h2
    rw [show ((Nat.log 2 r.den : Int) + 1) = ((Nat.log 2 r.den + 1 : Nat) : Int) by push_cast; rfl,
      zpow_natCast]
    exact_mod_cast this
  have h1q : (2 : ℚ) ^ (Nat.log 2 r.num.natAbs : Int) ≤ (r.num.natAbs : ℚ) := by
    rw [zpow_natCast]
    exact_mod_cast h1
  have hpos : (0 : ℚ) < (2 : ℚ) ^ ((Nat.log 2 r.num.natAbs : Int) - (Nat.log 2 r.den : Int) - 1) := by
    positivity
  calc (2 : ℚ) ^ ((Nat.log 2 r.num.natAbs : Int) - (Nat.log 2 r.den : Int) - 1) * (r.den : ℚ)
      < (2 : ℚ) ^ ((Nat.log 2 r.num.natAbs : Int) - (Nat.log 2 r.den : Int) - 1)
          * (2 : ℚ) ^ ((Nat.log 2 r.den : Int) + 1) := by
        exact mul_lt_mul_of_pos_left h2q hpos
    _ = (2 : ℚ) ^ (Nat.log 2 r.num.natAbs : Int) := e1
    _ ≤ (r.num.natAbs : ℚ) := h1q

/-- The exponent chosen for a value of magnitude at most `2 ^ K` is at most `K`
(for `K` in the normal range). -/
theorem floatExponent_le (r : Rat) (K : Int) (hK : -1 ≤ K) (hr : |r| ≤ pow2 K) :
    floatExponent r ≤ K := by
  unfold floatExponent
  apply max_le _ (by omega)
  by_cases h0 : r = 0
  · subst h0
    have : ¬ pow2 ((ilog2 (0 : ℚ).num.natAbs : Int) - (ilog2 (0 : ℚ).den : Int)) ≤ |(0 : ℚ)| := by
      rw [abs_zero]
      exact not_le.mpr (pow2_pos _)
    simp only [this, if_false]
    have : ((ilog2 (0 : ℚ).num.natAbs : Int) - (ilog2 (0 : ℚ).den : Int)) = 0 := by decide
    rw [this]
    omega
  · split
    · rename_i h
      exact pow2_le_pow2.mp (le_trans h hr)
    · have := lt_of_lt_of_le (pow2_lt_abs r h0) hr
      have := pow2_lt_pow2.mp this
      omega

/-- Rounding keeps the sign of a non-negative value. -/
theorem roundHalfEven_nonneg (q : Rat) (hq : 0 ≤ q) : 0 ≤ roundHalfEven q := by
  have hf : 0 ≤ ⌊q⌋ := Int.floor_nonneg.mpr hq
  unfold roundHalfEven
  split_ifs <;> omega

/-- Rounding does not cross an integer bound. -/
theorem roundHalfEven_le (q : Rat) (N : Int) (hq : q ≤ N) : roundHalfEven q ≤ N := by
  have hf : ⌊q⌋ ≤ N := Int.floor_le_iff.mpr (lt_of_le_of_lt hq (by linarith))
  have hlt : q - ⌊q⌋ < 1 / 2 ∨ ⌊q⌋ + 1 ≤ N := by
    by_cases h : ⌊q⌋ = N
    · left
      rw [h]
      linarith
    · right
      omega
  unfold roundHalfEven
  split_ifs with h1 h2 h3
  · exact hf
  · rcases hlt with h | h
    · exact absurd h h1
    · exact h
  · exact hf
  · rcases hlt with h | h
    · exact absurd h h1
    · exact h

/-- Narrowing keeps the sign of a non-negative value. -/
theorem f32_nonneg (x : Rat) (hx : 0 ≤ x) : 0 ≤ f32 x := by
  unfold f32
  apply mul_nonneg _ (pow2_pos _).le
  exact_mod_cast roundHalfEven_nonneg _ (div_nonneg hx (pow2_pos _).le)

/-- Narrowing does not cross a power of two of the normal range. -/
theorem f32_le_pow2 (x : Rat) (K : Int) (hK : -1 ≤ K) (hx0 : 0 ≤ x) (hx : x ≤ pow2 K) :
    f32 x ≤ pow2 K := by
  have he : floatExponent x ≤ K := floatExponent_le x K hK (by rwa [abs_of_nonneg hx0])
  unfold f32
  set e := floatExponent x with hedef
  have hsplit : pow2 K = pow2 (K - (e - 23)) * pow2 (e - 23) := by
    rw [← pow2_add]
    congr 1
    ring
  have hN : pow2 (K - (e - 23)) = (((2 ^ (K - (e - 23)).toNat : Nat) : Int) : ℚ) := by
    unfold pow2
    rw [if_pos (by omega)]
    push_cast
    rfl
  have hq : x / pow2 (e - 23) ≤ (((2 ^ (K - (e - 23)).toNat : Nat) : Int) : ℚ) := by
    rw [div_le_iff₀ (pow2_pos _), ← hN, ← hsplit]
    exact hx
  have hr := roundHalfEven_le _ _ hq
  rw [hsplit, hN]
  apply mul_le_mul_of_nonneg_right _ (pow2_pos _).le
  exact_mod_cast hr

/-- The magnitude of a rational times its denominator is the magnitude of its
numerator. -/
theorem abs_mul_den (r : Rat) : |r| * (r.den : ℚ) = (r.num.natAbs : ℚ) := by
  have hdpos : (0 : ℚ) < r.den := by exact_mod_cast Nat.pos_of_ne_zero r.den_nz
  have h3 : r * (r.den : ℚ) = (r.num : ℚ) := Rat.mul_den_eq_num r
  have h4 : |r| * (r.den : ℚ) = |(r.num : ℚ)| := by
    rw [← h3, abs_mul, abs_of_pos hdpos]
  rw [h4, ← Int.cast_abs, Int.abs_eq_natAbs]
  exact Int.cast_natCast _

/-- A rational lies below twice the power of two that the bit lengths of its
numerator and denominator give. -/
theorem abs_lt_pow2 (r : Rat) :
    |r| < pow2 ((ilog2 r.num.natAbs : Int) - (ilog2 r.den : Int) + 1) := by
  have hd : r.den ≠ 0 := r.den_nz
  have h1 : r.num.natAbs < 2 ^ (Nat.log 2 r.num.natAbs + 1) :=
    Nat.lt_pow_succ_log_self (by norm_num) _
  have h2 : 2 ^ Nat.log 2 r.den ≤ r.den := Nat.pow_log_le_self 2 hd
  have hdpos : (0 : ℚ) < r.den := by exact_mod_cast Nat.pos_of_ne_zero hd
  rw [ilog2_eq, ilog2_eq, pow2_eq, ← mul_lt_mul_right hdpos, abs_mul_den]
  have e1 : ((2 : ℚ) ^ ((Nat.log 2 r.num.natAbs : Int) - (Nat.log 2 r.den : Int) + 1))
      * (2 : ℚ) ^ (Nat.log 2 r.den : Int) = (2 : ℚ) ^ ((Nat.log 2 r.num.natAbs : Int) + 1) := by
    rw [← zpow_add₀ (by norm_num)]
    congr 1
    ring
  have h1q : (r.num.natAbs : ℚ) < (2 : ℚ) ^ ((Nat.log 2 r.num.natAbs : Int) + 1) := by
    have : (r.num.natAbs : ℚ) < ((2 ^ (Nat.log 2 r.num.natAbs + 1) : Nat) : ℚ) := by
      exact_mod_cast h1
    rw [show ((Nat.log 2 r.num.natAbs : Int) + 1) = ((Nat.log 2 r.num.natAbs + 1 : Nat) : Int) by
      push_cast; rfl, zpow_natCast]
    exact_mod_cast this
  have h2q : (2 : ℚ) ^ (Nat.log 2 r.den : Int) ≤ (r.den : ℚ) := by
    rw [zpow_natCast]
    exact_mod_cast h2
  have hpos : (0 : ℚ) < (2 : ℚ) ^ ((Nat.log 2 r.num.natAbs : Int) - (Nat.log 2 r.den : Int) + 1) := by
    positivity
  calc (r.num.natAbs : ℚ) < (2 : ℚ) ^ ((Nat.log 2 r.num.natAbs : Int) + 1) := h1q
    _ = ((2 : ℚ) ^ ((Nat.log 2 r.num.natAbs : Int) - (Nat.log 2 r.den : Int) + 1))
          * (2 : ℚ) ^ (Nat.log 2 r.den : Int) := e1.symm
    _ ≤ ((2 : ℚ) ^ ((Nat.log 2 r.num.natAbs : Int) - (Nat.log 2 r.den : Int) + 1))
          * (r.den : ℚ) := mul_le_mul_of_nonneg_left h2q hpos.le

/-- The exponent chosen for a non-zero value of magnitude below `2 ^ (K + 1)` is
at most `K`, for every `K` of the single-precision range. -/
theorem floatExponent_le_of_lt (r : Rat) (K : Int) (hK : -126 ≤ K) (hr0 : r ≠ 0)
    (hr : |r| < pow2 (K + 1)) : floatExponent r ≤ K := by
  unfold floatExponent
  apply max_le _ hK
  split
  · rename_i h
    have := pow2_lt_pow2.mp (lt_of_le_of_lt h hr)
    omega
  · have := pow2_lt_pow2.mp (lt_trans (pow2_lt_abs r hr0) hr)
    omega

/-- A value lies below the upper end of the binade chosen for it. -/
theorem abs_lt_pow2_floatExponent (r : Rat) : |r| < pow2 (floatExponent r + 1) := by
  have h1 := abs_lt_pow2 r
  unfold floatExponent
  by_cases hc : pow2 ((ilog2 r.num.natAbs : Int) - (ilog2 r.den : Int)) ≤ |r|
  · simp only [hc, if_true]
    exact lt_of_lt_of_le h1 (pow2_le_pow2.mpr (by
      have := le_max_left ((ilog2 r.num.natAbs : Int) - (ilog2 r.den : Int)) (-126)
      omega))
  · simp only [hc, if_false]
    exact lt_of_lt_of_le (not_le.mp hc) (pow2_le_pow2.mpr (by
      have := le_max_left ((ilog2 r.num.natAbs : Int) - (ilog2 r.den : Int) - 1) (-126)
      omega))

/-- The chosen exponent is at least the smallest normal exponent. -/
theorem floatExponent_ge (r : Rat) : -126 ≤ floatExponent r := by
  unfold floatExponent
  exact le_max_right _ _

/-- Rounding keeps an integer. -/
theorem roundHalfEven_intCast (m : Int) : roundHalfEven (m : ℚ) = m := by
  unfold roundHalfEven
  simp

/-- A power of two with a non-negative exponent is an integer. -/
theorem pow2_of_nonneg (k : Int) (hk : 0 ≤ k) : pow2 k = (((2 ^ k.toNat : Nat) : Int) : ℚ) := by
  unfold pow2
  rw [if_pos hk]
  push_cast
  rfl

/-- A multiple `n * 2 ^ (e - 23)` with `|n| < 2 ^ 24` and `e` at least the
smallest normal exponent is a single-precision value: narrowing keeps it. -/
theorem f32_of_scaled_int (n e : Int) (he : -126 ≤ e) (hn : |n| < 2 ^ 24) :
    f32 ((n : ℚ) * pow2 (e - 23)) = (n : ℚ) * pow2 (e - 23) := by
  by_cases hn0 : n = 0
  · subst hn0
    simp [f32_zero]
  have hx0 : (n : ℚ) * pow2 (e - 23) ≠ 0 :=
    mul_ne_zero (by exact_mod_cast hn0) (pow2_pos _).ne'
  have h24 : pow2 24 = 16777216 := by decide!
  have hlt : |(n : ℚ) * pow2 (e - 23)| < pow2 (e + 1) := by
    rw [abs_mul, abs_of_pos (pow2_pos _), show e + 1 = 24 + (e - 23) by ring, pow2_add, h24]
    apply mul_lt_mul_of_pos_right _ (pow2_pos _)
    have : ((|n| : Int) : ℚ) < ((2 ^ 24 : Int) : ℚ) := by exact_mod_cast hn
    rw [Int.cast_abs] at this
    norm_num at this ⊢
    exact this
  have hE : floatExponent ((n : ℚ) * pow2 (e - 23)) ≤ e :=
    floatExponent_le_of_lt _ e he hx0 hlt
  unfold f32
  set E := floatExponent ((n : ℚ) * pow2 (e - 23)) with hEdef
  have hsplit : pow2 (e - 23) = pow2 (e - E) * pow2 (E - 23) := by
    rw [← pow2_add]
    congr 1
    ring
  have hq : (n : ℚ) * pow2 (e - 23) / pow2 (E - 23)
      = ((n * ((2 ^ (e - E).toNat : Nat) : Int) : Int) : ℚ) := by
    rw [hsplit, ← mul_assoc, mul_div_assoc, div_self (pow2_pos _).ne', mul_one,
      pow2_of_nonneg _ (by omega)]
    push_cast
    rfl
  rw [hq, roundHalfEven_intCast, hsplit, pow2_of_nonneg (e - E) (by omega)]
  push_cast
  ring

/-- Narrowing does not make a non-positive value positive. -/
theorem f32_nonpos (x : Rat) (hx : x ≤ 0) : f32 x ≤ 0 := by
  unfold f32
  apply mul_nonpos_of_nonpos_of_nonneg _ (pow2_pos _).le
  have h : x / pow2 (floatExponent x - 23) ≤ ((0 : Int) : ℚ) := by
    rw [Int.cast_zero]
    exact div_nonpos_of_nonpos_of_nonneg hx (pow2_pos _).le
  exact_mod_cast roundHalfEven_le _ 0 h

/-- The narrowing of a non-negative value is a multiple `n * 2 ^ (e - 23)` with
`0 <= n < 2 ^ 24` and `e` at least the smallest normal exponent. -/
theorem f32_representable (v : Rat) (hv : 0 ≤ v) :
    ∃ n e : Int, -126 ≤ e ∧ 0 ≤ n ∧ n < 2 ^ 24 ∧ f32 v = (n : ℚ) * pow2 (e - 23) := by
  have hE : -126 ≤ floatExponent v := floatExponent_ge v
  have h24 : pow2 24 = 16777216 := by decide!
  have h1 : pow2 1 = 2 := by decide!
  have hN0 : 0 ≤ roundHalfEven (v / pow2 (floatExponent v - 23)) :=
    roundHalfEven_nonneg _ (div_nonneg hv (pow2_pos _).le)
  have hq : v / pow2 (floatExponent v - 23) ≤ ((16777216 : Int) : ℚ) := by
    rw [div_le_iff₀ (pow2_pos _)]
    have h := abs_lt_pow2_floatExponent v
    rw [abs_of_nonneg hv, show floatExponent v + 1 = 24 + (floatExponent v - 23) by ring,
      pow2_add, h24] at h
    push_cast
    exact h.le
  have hN1 : roundHalfEven (v / pow2 (floatExponent v - 23)) ≤ 16777216 :=
    roundHalfEven_le _ _ hq
  by_cases hlt : roundHalfEven (v / pow2 (floatExponent v - 23)) < 2 ^ 24
  · exact ⟨_, floatExponent v, hE, hN0, hlt, rfl⟩
  · have hN : roundHalfEven (v / pow2 (floatExponent v - 23)) = 16777216 := by omega
    refine ⟨8388608, floatExponent v + 1, by omega, by norm_num, by norm_num, ?_⟩
    unfold f32
    rw [hN, show floatExponent v + 1 - 23 = 1 + (floatExponent v - 23) by ring, pow2_add, h1]
    push_cast
    ring

/-- Narrowing is idempotent on non-negative values. -/
theorem f32_idem (v : Rat) (hv : 0 ≤ v) : f32 (f32 v) = f32 v := by
  obtain ⟨n, e, he, hn0, hn, hf⟩ := f32_representable v hv
  rw [hf]
  exact f32_of_scaled_int n e he (by rw [abs_of_nonneg hn0]; exact hn)

/-- Sample values of the narrowing: `0.1`, two ties of the binade of `1`, two
ties of the subnormal range, and a negative value. -/
theorem f32_samples :
    f32 (1 / 10) = 13421773 / 134217728 ∧
    f32 (16777217 / 16777216) = 1 ∧
    f32 (16777219 / 16777216) = 4194305 / 4194304 ∧
    f32 (1 / 2 ^ 150) = 0 ∧
    f32 (3 / 2 ^ 150) = 1 / 2 ^ 148 ∧
    f32 (-1 / 3) = -11184811 / 33554432 := by
  refine ⟨by decide!, by decide!, by decide!, by decide!, by decide!, by decide!⟩

/-- The product of `128` and a non-negative single-precision value is a
single-precision value: the multiplication in `float` is exact. -/
theorem f32_mul_128 (v : Rat) (hv : 0 ≤ v) : f32 (128 * f32 v) = 128 * f32 v := by
  obtain ⟨n, e, he, hn0, hn, hf⟩ := f32_representable v hv
  have h7 : pow2 7 = 128 := by decide!
  have hscale : 128 * ((n : ℚ) * pow2 (e - 23)) = (n : ℚ) * pow2 (e + 7 - 23) := by
    rw [show e + 7 - 23 = 7 + (e - 23) by ring, pow2_add, h7]
    ring
  rw [hf, hscale]
  exact f32_of_scaled_int n (e + 7) (by omega) (by rw [abs_of_nonneg hn0]; exact hn)

/-- The `float` product `128 * c` of a clamped stored volume is exact. -/
theorem f32_scaled_clamp (v : Rat) :
    f32 (128 * max 0 (min (f32 v) 1)) = 128 * max 0 (min (f32 v) 1) := by
  by_cases h0 : f32 v ≤ 0
  · have : max 0 (min (f32 v) 1) = 0 :=
      max_eq_left (le_trans (min_le_left _ _) h0)
    rw [this, mul_zero, f32_zero]
  · by_cases h1 : 1 ≤ f32 v
    · have : max 0 (min (f32 v) 1) = 1 := by
        rw [min_eq_right h1, max_eq_right (by norm_num)]
      rw [this, mul_one]
      decide!
    · have hv : 0 ≤ v := by
        by_contra hneg
        exact h0 (f32_nonpos v (le_of_lt (not_le.mp hneg)))
      have : max 0 (min (f32 v) 1) = f32 v := by
        rw [min_eq_left (le_of_lt (not_le.mp h1)), max_eq_right (le_of_lt (not_le.mp h0))]
      rw [this]
      exact f32_mul_128 v hv

/-! ## Volume, pause and ownership of Music objects -/

/-- Truncation toward zero of a non-negative real is its floor. -/
theorem truncToInt_of_nonneg (r : Rat) (h : 0 ≤ r) : truncToInt r = ⌊r⌋ := by
  simp [truncToInt, h]

/-- The clamp written with two comparisons in `pgmusic_set_volume` is
`max 0 (min v 1)`. -/
theorem volume_clamp_eq (v : Rat) :
    (if v < 0 then (0 : Rat) else if v > 1 then 1 else v) = max 0 (min v 1) := by
  by_cases h0 : v < 0
  · rw [if_pos h0, max_eq_left]
    exact le_trans (min_le_left _ _) (le_of_lt h0)
  · rw [if_neg h0]
    by_cases h1 : v > 1
    · rw [if_pos h1, min_eq_right (le_of_lt h1), max_eq_right (by norm_num)]
    · rw [if_neg h1, min_eq_left (not_lt.mp h1), max_eq_right (not_lt.mp h0)]

/-- Claim C11, as amended.  For every Music object and every real `v` (a Python
float), `pgmusic_set_volume(track, v)` returns `0` and stores
`track.volume = clamp(fl(v), 0, 1)`, where `fl(v)` is `v` rounded to the C
`float` of the field; `pgmusic_get_volume` returns that value.  When the track
is the current owner the engine receives `Mix_VolumeMusic` of the integer part
of `128 * clamp(fl(v), 0, 1)` (the `float` product is exact), a value in
`0..128` that becomes the engine volume; when it is not, engine state and trace
are unchanged. -/
theorem C11_volume_clamp (s : MusicState) (self : ObjId) (v : Rat) :
    ((pgmusic_set_volume s self (some v)).1.objs self).volume = max 0 (min (f32 v) 1) ∧
    pgmusic_get_volume (pgmusic_set_volume s self (some v)).1 self = max 0 (min (f32 v) 1) ∧
    (pgmusic_set_volume s self (some v)).2 = ⟨0, none⟩ ∧
    (0 ≤ ⌊128 * max 0 (min (f32 v) 1)⌋ ∧ ⌊128 * max 0 (min (f32 v) 1)⌋ ≤ 128) ∧
    (pgmusic_set_volume s self (some v)).1.mixer =
      (if s.current_music_obj = some self
       then Mix_VolumeMusic s.mixer ⌊128 * max 0 (min (f32 v) 1)⌋ else s.mixer) ∧
    (pgmusic_set_volume s self (some v)).1.mixer.volume =
      (if s.current_music_obj = some self
       then ⌊128 * max 0 (min (f32 v) 1)⌋ else s.mixer.volume) ∧
    (pgmusic_set_volume s self (some v)).1.mixer.log =
      (if s.current_music_obj = some self
       then Call.volumeMusic ⌊128 * max 0 (min (f32 v) 1)⌋ :: s.mixer.log
       else s.mixer.log) := by
  have hc0 : (0 : Rat) ≤ max 0 (min (f32 v) 1) := le_max_left _ _
  have hc1 : max 0 (min (f32 v) 1) ≤ (1 : Rat) := max_le (by norm_num) (min_le_right _ _)
  have hy0 : (0 : Rat) ≤ 128 * max 0 (min (f32 v) 1) := by positivity
  have hy1 : 128 * max 0 (min (f32 v) 1) ≤ (128 : Rat) := by linarith
  have hf0 : 0 ≤ ⌊128 * max 0 (min (f32 v) 1)⌋ := Int.floor_nonneg.mpr hy0
  have hf1 : ⌊128 * max 0 (min (f32 v) 1)⌋ ≤ 128 := by
    have : 128 * max 0 (min (f32 v) 1) ≤ ((128 : Int) : Rat) := by
      push_cast
      exact hy1
    exact Int.cast_le.mp (le_trans (Int.floor_le _) this)
  have htr : truncToInt (f32 (max 0 (min (f32 v) 1) * 128))
      = ⌊128 * max 0 (min (f32 v) 1)⌋ := by
    rw [mul_comm, f32_scaled_clamp]
    exact truncToInt_of_nonneg _ hy0
  by_cases hown : s.current_music_obj = some self
  · simp only [pgmusic_set_volume, pgmusic_get_volume, volume_clamp_eq, MusicState.setObj,
      Function.update_same, hown, if_true, htr]
    refine ⟨trivial, trivial, trivial, ⟨hf0, hf1⟩, trivial, ?_, rfl⟩
    simp [Mix_VolumeMusic, not_lt.mpr hf0, hf1]
  · have hown1 : ¬ some self = s.current_music_obj := fun h => hown h.symm
    simp only [pgmusic_set_volume, pgmusic_get_volume, volume_clamp_eq, MusicState.setObj,
      Function.update_same, hown1, hown, if_false]
    exact ⟨trivial, trivial, trivial, ⟨hf0, hf1⟩, trivial, trivial, trivial⟩

/-- Counterexample to C11 as stated: the owner `Music 0` is given the volume
`v = 1 - 2 ^ (-30)` (a `double`).  The stored volume is `1`, not
`clamp(v, 0, 1) = v`, and the engine receives `128`, not the integer part `127`
of `128 * v`. -/
theorem C11_counterexample :
    playingState.current_music_obj = some 0 ∧
    ((pgmusic_set_volume playingState 0 (some (1073741823 / 1073741824))).1.objs 0).volume = 1 ∧
    pgmusic_get_volume (pgmusic_set_volume playingState 0 (some (1073741823 / 1073741824))).1 0
      = 1 ∧
    (pgmusic_set_volume playingState 0 (some (1073741823 / 1073741824))).1.mixer.log.head?
      = some (.volumeMusic 128) ∧
    max (0 : Rat) (min (1073741823 / 1073741824) 1) = 1073741823 / 1073741824 ∧
    (1073741823 / 1073741824 : Rat) ≠ 1 ∧
    ⌊(128 : Rat) * max 0 (min (1073741823 / 1073741824) 1)⌋ = 127 := by
  refine ⟨rfl, by decide!, by decide!, by decide!, by decide!, by norm_num, by decide!⟩

/-- Claim C12.  With the mixer initialised, `music_play` with no legacy music
loaded and `pgmusic_play` on a Music object without a resource return the
"music not loaded" error for every argument and engine answer, and the state,
engine trace included, is the one before the call. -/
theorem C12_play_without_resource (s t : MusicState) (self : ObjId)
    (loops fade_ms : Int) (startpos fade_in : Rat)
    (spec : Option (Int × Nat × Int)) (now : Nat) (val : Int) (a : PlayAnswers)
    (hs : s.mixer_init = true) (hcur : s.current_music = none)
    (ht : t.mixer_init = true) (hobj : (t.objs self).music = none) :
    music_play s loops startpos fade_ms spec now val = (s, .error .music_not_loaded) ∧
    pgmusic_play t self loops startpos fade_in a
      = some (t, .error .music_not_loaded) := by
  constructor
  · simp [music_play, hs, hcur]
  · simp [pgmusic_play, ht, hobj]

/-- Witness of C12: `loops = -1` on the freshly loaded module, and on `Music 5`
of `unloadedState`, which has no resource. -/
theorem C12_play_without_resource_witness :
    music_play sampleState (-1) 0 0 none 0 0 = (sampleState, .error .music_not_loaded) ∧
    pgmusic_play unloadedState 5 (-1) 0 0 idleAnswers
      = some (unloadedState, .error .music_not_loaded) :=
  C12_play_without_resource sampleState unloadedState 5 (-1) 0 0 0 none 0 0 idleAnswers
    rfl rfl rfl rfl

/-- Claim C13.  For every state and every Music object, owner or not, a second
`pgmusic_set_paused(track, true)` answered with the same engine position gives
the same return value and, the engine trace apart, the same state as the first:
same Music objects (paused flag, position, ended flag), same owner and
coordinator globals, same engine pause flag. -/
theorem C13_pause_idempotent (s : MusicState) (self : ObjId) (enginePos : Rat) :
    (pgmusic_set_paused (pgmusic_set_paused s self 1 enginePos).1 self 1 enginePos).2
      = (pgmusic_set_paused s self 1 enginePos).2 ∧
    dropTrace (pgmusic_set_paused (pgmusic_set_paused s self 1 enginePos).1 self 1 enginePos).1
      = dropTrace (pgmusic_set_paused s self 1 enginePos).1 := by
  by_cases hi : s.mixer_init = true <;> by_cases h26 : s.mixer_2_6 = true <;>
    by_cases hown : some self = s.current_music_obj <;>
    simp [pgmusic_set_paused, hi, h26, hown, MusicState.setObj, dropTrace, Mix_PauseMusic,
      Mixer.record]

/-- Claim C15, the code at the failing input.  In `legacyLoadedState` legacy
music is loaded and `current_music_obj` is `NULL`; `Music 0` has a resource.
On SDL_mixer 2.6 or later `pgmusic_play` enters the hand-over block, finds
`current_music_obj != self`, and writes `current_music_obj->ended`: the call has
no result and no owner is installed, whatever the engine answers. -/
theorem C15_play_dereferences_absent_owner :
    legacyLoadedState.mixer_init = true ∧
    legacyLoadedState.current_music = some 1 ∧
    legacyLoadedState.current_music_obj = none ∧
    (legacyLoadedState.objs 0).music = some 100 ∧
    pgmusic_play_take_channel legacyLoadedState 0 idleAnswers = none ∧
    pgmusic_play legacyLoadedState 0 0 0 0 idleAnswers = none ∧
    ∀ a : PlayAnswers, pgmusic_play legacyLoadedState 0 0 0 0 a = none := by
  refine ⟨rfl, rfl, rfl, rfl, rfl, rfl, ?_⟩
  intro a
  have h : pgmusic_play_take_channel legacyLoadedState 0 a = none := by
    cases hp : a.playing <;>
      simp [pgmusic_play_take_channel, Mix_HaltMusic, hp, legacyLoadedState, music_load,
        _load_music, sampleState, initial, Mixer.record]
  have hi : legacyLoadedState.mixer_init = true := rfl
  have hm : (legacyLoadedState.objs 0).music = some 100 := rfl
  simp [pgmusic_play, hi, hm, h]

/-- Outside the state in which legacy music is loaded and no Music object owns
the channel, `pgmusic_play` on a loaded track returns and leaves the track as
owner. -/
theorem play_installs_owner (s : MusicState) (self : ObjId) (h : Handle)
    (loops : Int) (startpos fade_in : Rat) (a : PlayAnswers)
    (hinit : s.mixer_init = true) (hm : (s.objs self).music = some h)
    (hsafe : s.current_music_obj = none → s.current_music = none) :
    ∃ s1 r, pgmusic_play s self loops startpos fade_in a = some (s1, r) ∧
      s1.current_music_obj = some self := by
  obtain ⟨s1, r, h1, -, -, -, -, ho⟩ :=
    play_start_offset s self h loops startpos fade_in a hinit hm hsafe
  exact ⟨s1, r, h1, ho⟩

/-! ## Type-hint resolution -/

/-- Only `.` folds to `.`. -/
theorem toLower_eq_dot (c : Char) : c.toLower = '.' ↔ c = '.' := by
  constructor
  · intro h
    unfold Char.toLower at h
    by_cases hr : c.toNat ≥ 65 ∧ c.toNat ≤ 90
    · simp only [hr, and_self, if_true] at h
      exfalso
      obtain ⟨h1, h2⟩ := hr
      generalize c.toNat = n at h h1 h2
      interval_cases n <;> revert h <;> decide
    · simpa [hr] using h
  · rintro rfl
    decide

/-- `SDL_strcasecmp` returns `0` exactly on strings equal up to ASCII case. -/
theorem strcasecmp_eq_zero (a b : List Char) :
    SDL_strcasecmp a b = 0 ↔ asciiLower a = asciiLower b := by
  induction a generalizing b with
  | nil => cases b <;> simp [SDL_strcasecmp, asciiLower]
  | cons x xs ih =>
    cases b with
    | nil => simp [SDL_strcasecmp, asciiLower]
    | cons y ys =>
      by_cases hxy : x.toLower = y.toLower
      · simp [SDL_strcasecmp, hxy, ih, asciiLower]
      · have hne : ((x.toLower.toNat : Int) - (y.toLower.toNat : Int)) ≠ 0 := by
          intro h
          apply hxy
          have h1 : x.toLower.toNat = y.toLower.toNat := by omega
          rw [← Char.ofNat_toNat x.toLower, ← Char.ofNat_toNat y.toLower, h1]
        simp [SDL_strcasecmp, hxy, hne, asciiLower]

/-- A string without `c` has no last occurrence of `c`. -/
theorem strrchr_none (l : List Char) (c : Char) (h : c ∉ l) : strrchr l c = none := by
  induction l with
  | nil => rfl
  | cons x xs ih =>
    have hx : x ≠ c := fun e => h (by simp [e])
    have hxs : c ∉ xs := fun e => h (by simp [e])
    simp [strrchr, ih hxs, hx]

/-- The last occurrence of `c` in `p ++ c :: e` when `e` has no `c`. -/
theorem strrchr_append (p e : List Char) (c : Char) (h : c ∉ e) :
    strrchr (p ++ c :: e) c = some (c :: e) := by
  induction p with
  | nil => simp [strrchr, strrchr_none e c h]
  | cons x xs ih => simp [strrchr, ih]

/-- A hint without `.` is its own extension. -/
theorem extensionOf_no_dot (l : List Char) (h : '.' ∉ l) : extensionOf l = l := by
  unfold extensionOf
  rw [List.takeWhile_eq_self_iff.mpr, List.reverse_reverse]
  intro x hx
  have : x ≠ '.' := fun e => h (by simpa [e] using hx)
  simpa using this

/-- The extension of `p ++ '.' :: e` is `e` when `e` has no `.`. -/
theorem extensionOf_append (p e : List Char) (h : '.' ∉ e) :
    extensionOf (p ++ '.' :: e) = e := by
  unfold extensionOf
  have hrev : (p ++ '.' :: e).reverse = e.reverse ++ '.' :: p.reverse := by simp
  rw [hrev, List.takeWhile_append_of_pos]
  · simp
  · intro x hx
    have : x ≠ '.' := fun e' => h (by simpa [e'] using hx)
    simpa using this

/-- Every hint either has no `.` or splits at its last `.`. -/
theorem split_at_last_dot (l : List Char) :
    '.' ∉ l ∨ ∃ p e, l = p ++ '.' :: e ∧ '.' ∉ e := by
  induction l with
  | nil => left; simp
  | cons x xs ih =>
    rcases ih with h | ⟨p, e, rfl, he⟩
    · by_cases hx : x = '.'
      · right; exact ⟨[], xs, by simp [hx], h⟩
      · left
        intro hm
        rcases List.mem_cons.mp hm with h1 | h1
        · exact hx h1.symm
        · exact h h1
    · right; exact ⟨x :: p, e, by simp, he⟩

/-- The extension computed by the pointer arithmetic of `_get_type_from_hint`
is the text after the last `.`. -/
theorem source_extension (hint : List Char) :
    (match strrchr hint '.' with
      | some dot => dot.drop 1
      | none => hint) = extensionOf hint := by
  rcases split_at_last_dot hint with h | ⟨p, e, rfl, he⟩
  · rw [strrchr_none hint '.' h, extensionOf_no_dot hint h]
  · rw [strrchr_append p e '.' he, extensionOf_append p e he]
    rfl

/-- Case folding commutes with taking the extension. -/
theorem extensionOf_asciiLower (l : List Char) :
    extensionOf (asciiLower l) = asciiLower (extensionOf l) := by
  have hmem : ∀ m : List Char, '.' ∉ m → '.' ∉ asciiLower m := by
    intro m hm hc
    obtain ⟨c, hc1, hc2⟩ := List.mem_map.mp hc
    exact hm (((toLower_eq_dot c).mp hc2) ▸ hc1)
  rcases split_at_last_dot l with h | ⟨p, e, rfl, he⟩
  · rw [extensionOf_no_dot l h, extensionOf_no_dot _ (hmem l h)]
  · rw [extensionOf_append p e he]
    have : asciiLower (p ++ '.' :: e) = asciiLower p ++ '.' :: asciiLower e := by
      simp [asciiLower]
    rw [this, extensionOf_append _ _ (hmem e he)]

/-- Lookup in an empty table. -/
theorem tableLookup_nil (ext : List Char) : tableLookup [] ext = .MUS_NONE := rfl

/-- Lookup in a table, one row at a time. -/
theorem tableLookup_cons (k : String) (ty : Mix_MusicType)
    (table : List (String × Mix_MusicType)) (ext : List Char) :
    tableLookup ((k, ty) :: table) ext =
      if asciiLower ext = asciiLower k.toList then ty else tableLookup table ext := by
  by_cases h : asciiLower ext = asciiLower k.toList <;>
    simp only [tableLookup, List.find?_cons, h, decide_True, decide_False, if_true, if_false]

/-- A test of two alternatives with one outcome is two tests in a row. -/
theorem ite_or_split {α : Type} (a b : Prop) [Decidable a] [Decidable b] (t e : α) :
    (if a ∨ b then t else e) = if a then t else if b then t else e := by
  by_cases ha : a <;> simp [ha]

/-- The chain of comparisons of `_get_type_from_hint` is the table lookup. -/
theorem get_type_eq_table (v28 : Bool) (hint : Option (List Char)) :
    _get_type_from_hint v28 hint = typeOfHint v28 hint := by
  cases hint with
  | none => rfl
  | some h =>
    simp only [_get_type_from_hint, source_extension, strcasecmp_eq_zero, typeOfHint, typeTable]
    cases v28 <;>
      simp only [if_true, if_false, Bool.false_eq_true, false_and, true_and, List.append_nil,
        List.cons_append, List.nil_append, tableLookup_cons, tableLookup_nil, ite_or_split]

/-- The lookup sees an extension only up to ASCII case. -/
theorem tableLookup_congr (table : List (String × Mix_MusicType)) (e1 e2 : List Char)
    (h : asciiLower e1 = asciiLower e2) : tableLookup table e1 = tableLookup table e2 := by
  unfold tableLookup
  rw [h]

/-- A lookup that finds no row gives `MUS_NONE`. -/
theorem tableLookup_none_or_row (table : List (String × Mix_MusicType)) (ext : List Char) :
    (∃ row ∈ table, asciiLower ext = asciiLower row.1.toList ∧ tableLookup table ext = row.2) ∨
    tableLookup table ext = .MUS_NONE := by
  unfold tableLookup
  cases hf : table.find? (fun row => decide (asciiLower ext = asciiLower row.1.toList)) with
  | none => right; rfl
  | some row =>
    left
    refine ⟨row, List.mem_of_find?_eq_some hf, ?_, rfl⟩
    have := List.find?_some hf
    simpa using this

/-- Claim C14.  For every hint, `_get_type_from_hint` is the lookup, up to ASCII
case, of the text after the last `.` (the whole hint when it has no `.`) in the
fixed table; hints equal up to letter case, and hints that differ only before
the last `.`, get the same type; the `NULL` hint and every extension that
matches no row of the table get `MUS_NONE`. -/
theorem C14_type_hint_resolution (v28 : Bool) (hint : Option (List Char))
    (h1 h2 p1 p2 e : List Char)
    (hcase : asciiLower h1 = asciiLower h2) (hdot : '.' ∉ e) :
    _get_type_from_hint v28 hint = typeOfHint v28 hint ∧
    _get_type_from_hint v28 (some h1) = tableLookup (typeTable v28) (extensionOf h1) ∧
    _get_type_from_hint v28 (some h1) = _get_type_from_hint v28 (some h2) ∧
    _get_type_from_hint v28 (some (p1 ++ '.' :: e)) = tableLookup (typeTable v28) e ∧
    _get_type_from_hint v28 (some (p1 ++ '.' :: e))
      = _get_type_from_hint v28 (some (p2 ++ '.' :: e)) ∧
    _get_type_from_hint v28 none = .MUS_NONE ∧
    ((∃ row ∈ typeTable v28, asciiLower (extensionOf h1) = asciiLower row.1.toList ∧
        _get_type_from_hint v28 (some h1) = row.2) ∨
      _get_type_from_hint v28 (some h1) = .MUS_NONE) := by
  have hext : asciiLower (extensionOf h1) = asciiLower (extensionOf h2) := by
    rw [← extensionOf_asciiLower, ← extensionOf_asciiLower, hcase]
  refine ⟨get_type_eq_table v28 hint, get_type_eq_table v28 (some h1), ?_, ?_, ?_, rfl, ?_⟩
  · rw [get_type_eq_table, get_type_eq_table]
    exact tableLookup_congr _ _ _ hext
  · rw [get_type_eq_table]
    show tableLookup _ (extensionOf _) = _
    rw [extensionOf_append p1 e hdot]
  · rw [get_type_eq_table, get_type_eq_table]
    show tableLookup _ (extensionOf _) = tableLookup _ (extensionOf _)
    rw [extensionOf_append p1 e hdot, extensionOf_append p2 e hdot]
  · rw [get_type_eq_table]
    exact tableLookup_none_or_row _ _

/-- Witness of C14: `Song.OGG` against `sONG.ogg`, and `a.mp3` against
`b.c.mp3`, on SDL_mixer 2.8. -/
theorem C14_type_hint_resolution_witness :
    _get_type_from_hint true (some "x.WV".toList) = typeOfHint true (some "x.WV".toList) ∧
    _get_type_from_hint true (some "Song.OGG".toList)
      = tableLookup (typeTable true) (extensionOf "Song.OGG".toList) ∧
    _get_type_from_hint true (some "Song.OGG".toList)
      = _get_type_from_hint true (some "sONG.ogg".toList) ∧
    _get_type_from_hint true (some ("a".toList ++ '.' :: "mp3".toList))
      = tableLookup (typeTable true) "mp3".toList ∧
    _get_type_from_hint true (some ("a".toList ++ '.' :: "mp3".toList))
      = _get_type_from_hint true (some ("b.c".toList ++ '.' :: "mp3".toList)) ∧
    _get_type_from_hint true none = .MUS_NONE ∧
    ((∃ row ∈ typeTable true,
        asciiLower (extensionOf "Song.OGG".toList) = asciiLower row.1.toList ∧
        _get_type_from_hint true (some "Song.OGG".toList) = row.2) ∨
      _get_type_from_hint true (some "Song.OGG".toList) = .MUS_NONE) :=
  C14_type_hint_resolution true (some "x.WV".toList) "Song.OGG".toList "sONG.ogg".toList
    "a".toList "b.c".toList "mp3".toList (by decide) (by decide)

end Music
